import Mathlib

/-!
Verification of the Pilot container session orchestrator core.

This file shallowly embeds the orchestration core of the repository:
the session registry (session-store), the progress event bus
(progress-store), the container lifecycle layer (docker), the build
configuration detector (build-detector), the direct picker
injection-and-rollback mechanism (direct-picker-injection) and the
setup orchestrator state machine (repo-setup tool), and proves or
refutes the testable properties stated in the specification.

JavaScript Maps are modelled as association lists observed through
lookup; the sandbox file system is an association list from absolute
paths to file contents; JSON serialization of the injection manifest is
modelled exactly by a dedicated content constructor.
-/

set_option autoImplicit false

namespace Pilot

/-! ## String-keyed association maps (model of JS Map and of the sandbox FS) -/

/-- Association map with string keys, observed through `slookup`. -/
abbrev Smap (α : Type) : Type := List (String × α)

/-- The empty map. -/
def semp {α : Type} : Smap α := []

/-- Lookup of the most recent binding of a key (JS `Map.get`). -/
def slookup {α : Type} (k : String) : Smap α → Option α
  | [] => none
  | (k1, v) :: m => if k1 = k then some v else slookup k m

/-- Setting a key (JS `Map.set`): later bindings shadow earlier ones. -/
def sinsert {α : Type} (k : String) (v : α) (m : Smap α) : Smap α :=
  (k, v) :: m

/-- Keep only the entries whose key satisfies `p`. -/
def sfilterKeys {α : Type} (p : String → Bool) (m : Smap α) : Smap α :=
  m.filter (fun e => p e.1)

/-- Removing a key (JS `Map.delete`). -/
def serase {α : Type} (k : String) (m : Smap α) : Smap α :=
  sfilterKeys (fun s => !(s == k)) m

@[simp] theorem slookup_semp {α : Type} (q : String) :
    slookup q (semp : Smap α) = none := rfl

@[simp] theorem slookup_sinsert {α : Type} (k q : String) (v : α) (m : Smap α) :
    slookup q (sinsert k v m) = if k = q then some v else slookup q m := rfl

theorem slookup_sfilterKeys {α : Type} (p : String → Bool) (q : String) (m : Smap α) :
    slookup q (sfilterKeys p m) = if p q then slookup q m else none := by
  induction m with
  | nil => by_cases hp : p q <;> simp [sfilterKeys, slookup, hp]
  | cons e m ih =>
    obtain ⟨k1, v⟩ := e
    by_cases hp1 : p k1
    · rw [show sfilterKeys p ((k1, v) :: m) = (k1, v) :: sfilterKeys p m from by
        simp [sfilterKeys, List.filter, hp1]]
      by_cases hk : k1 = q
      · subst hk
        simp [slookup, hp1, ih]
      · simp [slookup, hk, ih]
    · rw [show sfilterKeys p ((k1, v) :: m) = sfilterKeys p m from by
        simp [sfilterKeys, List.filter, hp1]]
      by_cases hk : k1 = q
      · subst hk
        simp [slookup, hp1, ih]
      · simp [slookup, hk, ih]

theorem slookup_serase {α : Type} (k q : String) (m : Smap α) :
    slookup q (serase k m) = if q = k then none else slookup q m := by
  unfold serase
  rw [slookup_sfilterKeys]
  by_cases h : q = k <;> simp [h]

/-- Setting a key to the value it already has does not change any lookup. -/
theorem slookup_sinsert_same {α : Type} (k q : String) (v : α) (m : Smap α)
    (h : slookup k m = some v) :
    slookup q (sinsert k v m) = slookup q m := by
  by_cases hk : k = q
  · subst hk; simp [h]
  · simp [hk]

theorem slookup_sfilterKeys_none {α : Type} (p : String → Bool) (q : String) (m : Smap α)
    (h : slookup q m = none) : slookup q (sfilterKeys p m) = none := by
  rw [slookup_sfilterKeys]
  by_cases hp : p q <;> simp [hp, h]

/-! ## Sandbox file contents

File contents are strings; the injection manifest
`/workspace/.pilot-modifications.json` is a JSON document holding the
list of modified file paths (plus a timestamp and the session id, which
no reader ever consumes).  `JSON.stringify` followed by `JSON.parse`
round-trips exactly, so the manifest serialization is modelled by a
dedicated constructor carrying the file list directly; every ordinary
file is a `Content.str`.  `JSON.parse` of a missing manifest throws in
the source (caught and treated as nothing-to-restore), which the model
renders as a failed lookup or a non-manifest content. -/

/-- Content of one file inside the sandbox. -/
inductive Content : Type where
  /-- An ordinary text file, byte-for-byte. -/
  | str (s : String) : Content
  /-- The injection manifest: the recorded list of modified file paths. -/
  | files (l : List String) : Content
deriving DecidableEq

/-- The sandbox file system: absolute path to content. -/
abbrev FS : Type := Smap Content

/-! ## String search and splice (model of `String.includes` and regex `replace`) -/

/-- JS `content.includes(pat)` (case sensitive substring test). -/
def strContains (s pat : String) : Bool :=
  decide (pat.data <:+: s.data)

/-- Case-insensitive match of `pat` against `s` at offset `i`. -/
def matchesAt (pat s : List Char) (i : Nat) : Bool :=
  ((s.drop i).take pat.length).map Char.toLower == pat.map Char.toLower

/-- Offset of the first case-insensitive occurrence of `pat` in `s`
(model of where a literal `/pat/i` regex matches). -/
def findCI (pat s : List Char) : Option Nat :=
  (List.range (s.length + 1)).find? (fun i => matchesAt pat s i)

/-- JS `s.replace(/pat/i, repl)` for a literal pattern `pat`: replace the
first case-insensitive occurrence, or return `s` unchanged if none. -/
def spliceCI (pat repl s : String) : String :=
  match findCI pat.data s.data with
  | none => s
  | some i => ⟨s.data.take i ++ repl.data ++ s.data.drop (i + pat.data.length)⟩

/-! ## Direct picker injection and rollback

Embedding of `DirectPickerInjection` (`direct-picker-injection.ts`).
Container file access (`readFile` / `writeFile` / `execCommand` for
`mkdir -p`, `test -f`, `mv`, `rm -rf`, `rm -f`) is interpreted on the
sandbox `FS` directly; reading a missing file throws in the source and
is a failed lookup here. -/

/-- `DirectPickerInjection.PICKER_MARKER`. -/
def PICKER_MARKER : String := "__pilot_picker_injected__"

/-- `DirectPickerInjection.REPO_PATH`. -/
def REPO_PATH : String := "/workspace/repo"

/-- Suffix of every backup sibling file. -/
def backupSuffix : String := ".pilot-backup"

/-- Path of the modification manifest written by `trackModifications`. -/
def manifestPath : String := "/workspace/.pilot-modifications.json"

/-- Directory holding the copied instrumentation asset. -/
def pickerDir : String := REPO_PATH ++ "/public/picker"

/-- Destination path of the instrumentation script inside the sandbox. -/
def pickerDst : String := pickerDir ++ "/react-component-picker.js"

/-- Script tag inserted into a Next.js App Router layout. -/
def tagApp : String :=
  "        \x7b/* __pilot_picker_injected__ - Auto-injected by Pilot */\x7d\n        <script src=\"/picker/react-component-picker.js\" defer />"

/-- Script tag inserted into a Next.js Pages Router document. -/
def tagPages : String :=
  "          \x7b/* __pilot_picker_injected__ */\x7d\n          <script src=\"/picker/react-component-picker.js\" defer />"

/-- Script tag inserted into an HTML template. -/
def tagHtml : String :=
  "    <!-- __pilot_picker_injected__ -->\n    <script src=\"/picker/react-component-picker.js\" defer></script>"

/-- The `content.replace(/<html([^>]*)>/i, ...)` step of the App Router
branch: find the first case-insensitive `<html`, capture the attribute
run up to the closing `>`, and synthesize a `<head>` holding the script
tag; if the tag is never closed the regex does not match and the content
is returned unchanged. -/
def replaceHtmlOpen (c : String) : String :=
  match findCI "<html".data c.data with
  | none => c
  | some i =>
    if ((c.data.drop (i + 5)).takeWhile (fun ch => ch ≠ '>')).length =
        (c.data.drop (i + 5)).length
    then c
    else
      ⟨c.data.take i ++ ("<html".data ++ (c.data.drop (i + 5)).takeWhile (fun ch => ch ≠ '>')
        ++ (">\n      <head>\n" ++ tagApp ++ "\n      </head>").data)
        ++ c.data.drop (i + 5 + ((c.data.drop (i + 5)).takeWhile (fun ch => ch ≠ '>')).length + 1)⟩

/-- Body of one App Router loop iteration of `injectNextJs`: the two
anchored insertions, or `none` for the `throw` that the `catch`
turns into trying the next candidate path. -/
def mkApp (c : String) : Option String :=
  if strContains c "<head>" then
    some (spliceCI "<head>" ("<head>\n" ++ tagApp) c)
  else if strContains c "<html" then
    some (replaceHtmlOpen c)
  else
    none

/-- Body of one Pages Router loop iteration of `injectNextJs`:
insertion after `<Head>`; `String.replace` never throws, so a content
without `<Head>` is written back unchanged. -/
def mkPages (c : String) : Option String :=
  some (spliceCI "<Head>" ("<Head>\n" ++ tagPages) c)

/-- Body of one `injectHtmlTemplate` loop iteration: before `</head>`,
else after `<body>`, else appended at the end of the document. -/
def mkHtml (c : String) : Option String :=
  some
    (if strContains c "</head>" then
      spliceCI "</head>" (tagHtml ++ "\n  </head>") c
    else if strContains c "<body>" then
      spliceCI "<body>" ("<body>\n" ++ tagHtml) c
    else
      c ++ "\n" ++ tagHtml)

/-- App Router candidate entry points, in source order. -/
def appPaths : List String :=
  [REPO_PATH ++ "/app/layout.tsx", REPO_PATH ++ "/app/layout.jsx",
   REPO_PATH ++ "/src/app/layout.tsx", REPO_PATH ++ "/src/app/layout.jsx"]

/-- Pages Router candidate entry points, in source order. -/
def pagesPaths : List String :=
  [REPO_PATH ++ "/pages/_document.tsx", REPO_PATH ++ "/pages/_document.jsx",
   REPO_PATH ++ "/src/pages/_document.tsx", REPO_PATH ++ "/src/pages/_document.jsx"]

/-- HTML template candidate entry points, in source order. -/
def htmlPaths : List String :=
  [REPO_PATH ++ "/public/index.html", REPO_PATH ++ "/index.html",
   REPO_PATH ++ "/src/index.html"]

/-- One candidate path paired with its iteration body. -/
def appPairs : List (String × (String → Option String)) :=
  appPaths.map (fun p => (p, mkApp))

def pagesPairs : List (String × (String → Option String)) :=
  pagesPaths.map (fun p => (p, mkPages))

def htmlPairs : List (String × (String → Option String)) :=
  htmlPaths.map (fun p => (p, mkHtml))

/-- The shared shape of the three candidate loops: try each candidate in
order; a read failure or an in-iteration throw moves to the next
candidate, the marker short-circuits with no modification recorded, and
a successful modification backs up the original to the sibling path and
records the single modified file.  Returns `none` when every candidate
is exhausted. -/
def tryLoop (fs : FS) : List (String × (String → Option String)) → FS × Option (List String)
  | [] => (fs, none)
  | (p, mk) :: rest =>
    match slookup p fs with
    | some (Content.str c) =>
      if strContains c PICKER_MARKER then (fs, some [])
      else
        let fs1 := sinsert (p ++ backupSuffix) (Content.str c) fs
        match mk c with
        | some c1 => (sinsert p (Content.str c1) fs1, some [p])
        | none => tryLoop fs1 rest
    | _ => tryLoop fs rest

/-- `DirectPickerInjection.injectHtmlTemplate`. -/
def injectHtmlTemplate (fs : FS) : FS × Except String (List String) :=
  match tryLoop fs htmlPairs with
  | (fs1, some r) => (fs1, Except.ok r)
  | (fs1, none) => (fs1, Except.error "Could not find HTML entry point to inject picker")

/-- `DirectPickerInjection.injectNextJs`: App Router candidates, then
Pages Router candidates, then the HTML fallback. -/
def injectNextJs (fs : FS) : FS × Except String (List String) :=
  match tryLoop fs appPairs with
  | (fs1, some r) => (fs1, Except.ok r)
  | (fs1, none) =>
    match tryLoop fs1 pagesPairs with
    | (fs2, some r) => (fs2, Except.ok r)
    | (fs2, none) => injectHtmlTemplate fs2

/-- `DirectPickerInjection.modifyEntryPoint`: branch on the detected
framework (Vite, Create React App and unknown frameworks all take the
HTML template path). -/
def modifyEntryPoint (framework : String) (fs : FS) : FS × Except String (List String) :=
  if framework = "Next.js" then injectNextJs fs else injectHtmlTemplate fs

/-- Result record of `injectPicker`. -/
structure InjectionResult : Type where
  success : Bool
  filesModified : List String
  error : Option String
deriving DecidableEq

/-- `DirectPickerInjection.trackModifications`: write the manifest. -/
def trackModifications (fs : FS) (files : List String) : FS :=
  sinsert manifestPath (Content.files files) fs

/-- `DirectPickerInjection.injectPicker`: copy the picker script into the
static asset directory, modify the entry point and track the
modifications; any escaped exception is caught and reported as a failed
result with no recorded files. -/
def injectPicker (framework pickerContent : String) (fs : FS) : FS × InjectionResult :=
  let fs0 := sinsert pickerDst (Content.str pickerContent) fs
  match modifyEntryPoint framework fs0 with
  | (fs1, Except.ok files) =>
    (trackModifications fs1 files, ⟨true, files, none⟩)
  | (fs1, Except.error e) => (fs1, ⟨false, [], some e⟩)

/-- True for the instrumentation asset directory and everything below it
(the effect domain of `rm -rf ${REPO_PATH}/public/picker`). -/
def underPickerB (q : String) : Bool :=
  q == pickerDir || (pickerDir ++ "/").data.isPrefixOf q.data

/-- `execCommand(sessionId, [rm, -rf, pickerDir])`. -/
def removePickerDir (fs : FS) : FS :=
  sfilterKeys (fun q => !(underPickerB q)) fs

/-- One step of the restore loop of `cleanupInjection`: if the backup
sibling exists, move it over the original (restoring the content and
deleting the backup); otherwise leave the file alone. -/
def restoreOne (acc : FS) (f : String) : FS :=
  match slookup (f ++ backupSuffix) acc with
  | some c => sinsert f c (serase (f ++ backupSuffix) acc)
  | none => acc

/-- The restore loop of `cleanupInjection`: read the manifest
(tolerating its absence or unparsability, treated as nothing to
restore) and restore each recorded file from its backup sibling. -/
def restorePhase (fs : FS) : FS :=
  match slookup manifestPath fs with
  | some (Content.files l) => l.foldl restoreOne fs
  | _ => fs

/-- `DirectPickerInjection.cleanupInjection`: restore the recorded
files, remove the instrumentation asset directory and remove the
manifest; every step is best-effort. -/
def cleanupInjection (fs : FS) : FS :=
  serase manifestPath (removePickerDir (restorePhase fs))

/-! ## Progress event bus

Embedding of `ProgressStore` (`progress-store.ts`).  Wall-clock time is
an explicit `Nat` of milliseconds; subscriber callbacks are abstract
identifiers and a mutating operation additionally returns the list of
(subscriber, message) deliveries it performed synchronously.  The
`setTimeout` scheduled by `create` is modelled as a pending timer
carried in the store and fired by `fireTimers`. -/

/-- Severity of one progress message. -/
inductive Severity : Type where
  | info : Severity
  | success : Severity
  | error : Severity
deriving DecidableEq

/-- One entry of a progress timeline (`ProgressMessage`). -/
structure ProgressMessage : Type where
  timestamp : Nat
  message : String
  type : Severity
deriving DecidableEq

/-- One timeline (`ProgressExecution`); subscribers are callback ids. -/
structure ProgressExecution : Type where
  id : String
  messages : List ProgressMessage
  completed : Bool
  subscribers : List Nat
deriving DecidableEq

/-- A deletion scheduled by `create` via `setTimeout`. -/
structure PTimer : Type where
  fireAt : Nat
  execId : String
  inputHash : Option String
deriving DecidableEq

/-- The progress store state. -/
structure ProgressStore : Type where
  executions : Smap ProgressExecution
  inputHashToExecutionId : Smap String
  timers : List PTimer
deriving DecidableEq

namespace ProgressStore

/-- The empty store. -/
def empty : ProgressStore := ⟨semp, semp, []⟩

/-- Delay before the unconditional cleanup of an execution (5 min). -/
def cleanupDelayMs : Nat := 5 * 60 * 1000

/-- `ProgressStore.create`: register a fresh timeline, record the
reverse dedup lookup when a hash is given, and schedule the
unconditional deletion. -/
def create (s : ProgressStore) (now : Nat) (id : String) (inputHash : Option String) :
    ProgressStore :=
  { executions := sinsert id ⟨id, [], false, []⟩ s.executions
    inputHashToExecutionId :=
      match inputHash with
      | some h => sinsert h id s.inputHashToExecutionId
      | none => s.inputHashToExecutionId
    timers := s.timers ++ [⟨now + cleanupDelayMs, id, inputHash⟩] }

/-- `ProgressStore.getExecutionIdByInputHash`. -/
def getExecutionIdByInputHash (s : ProgressStore) (h : String) : Option String :=
  slookup h s.inputHashToExecutionId

/-- The dedup-against-last-message check of `update` and `complete`
(`===` on the text and on the severity). -/
def sameAsLast (msgs : List ProgressMessage) (m : String) (t : Severity) : Bool :=
  match msgs.getLast? with
  | some last => decide (last.message = m) && decide (last.type = t)
  | none => false

/-- `ProgressStore.update`: warn-and-return on an unknown execution,
drop a message equal in text and severity to the immediately preceding
one, otherwise append and synchronously notify every subscriber. -/
def update (s : ProgressStore) (now : Nat) (id : String) (m : String) (t : Severity) :
    ProgressStore × List (Nat × ProgressMessage) :=
  match slookup id s.executions with
  | none => (s, [])
  | some e =>
    if sameAsLast e.messages m t then (s, [])
    else
      let msg : ProgressMessage := ⟨now, m, t⟩
      ({ s with executions := sinsert id { e with messages := e.messages ++ [msg] } s.executions },
       e.subscribers.map (fun u => (u, msg)))

/-- `ProgressStore.complete`: mark completed and append the terminal
message, subject to the same dedup rule. -/
def complete (s : ProgressStore) (now : Nat) (id : String) (success : Bool) :
    ProgressStore × List (Nat × ProgressMessage) :=
  match slookup id s.executions with
  | none => (s, [])
  | some e =>
    let msg : ProgressMessage :=
      ⟨now, if success then "Completed successfully" else "Completed with errors",
       if success then Severity.success else Severity.error⟩
    if sameAsLast e.messages msg.message msg.type then
      ({ s with executions := sinsert id { e with completed := true } s.executions }, [])
    else
      ({ s with executions :=
          sinsert id { e with completed := true, messages := e.messages ++ [msg] } s.executions },
       e.subscribers.map (fun u => (u, msg)))

/-- `ProgressStore.subscribe` (ignoring the replay deliveries, which do
not change the store): register a callback on a known execution. -/
def subscribe (s : ProgressStore) (id : String) (u : Nat) : ProgressStore :=
  match slookup id s.executions with
  | none => s
  | some e =>
    { s with executions := sinsert id { e with subscribers := e.subscribers ++ [u] } s.executions }

/-- `ProgressStore.getMessages`. -/
def getMessages (s : ProgressStore) (id : String) : List ProgressMessage :=
  match slookup id s.executions with
  | some e => e.messages
  | none => []

/-- `ProgressStore.isCompleted`. -/
def isCompleted (s : ProgressStore) (id : String) : Bool :=
  match slookup id s.executions with
  | some e => e.completed
  | none => false

/-- `ProgressStore.exists`. -/
def existsExec (s : ProgressStore) (id : String) : Bool :=
  (slookup id s.executions).isSome

/-- Firing of one scheduled deletion: the `setTimeout` body of `create`
deletes the execution and, when present, the reverse hash lookup. -/
def fireOne (s : ProgressStore) (t : PTimer) : ProgressStore :=
  { s with
    executions := serase t.execId s.executions
    inputHashToExecutionId :=
      match t.inputHash with
      | some h => serase h s.inputHashToExecutionId
      | none => s.inputHashToExecutionId }

/-- Fire every timer that is due at time `now`. -/
def fireTimers (now : Nat) (s : ProgressStore) : ProgressStore :=
  let due := s.timers.filter (fun t => t.fireAt ≤ now)
  let s1 := due.foldl fireOne s
  { s1 with timers := s.timers.filter (fun t => !(t.fireAt ≤ now)) }

/-- Mutating operations other than `create` that can hit a timeline
between its creation and its scheduled deletion. -/
inductive POp : Type where
  | upd (now : Nat) (id : String) (m : String) (t : Severity) : POp
  | compl (now : Nat) (id : String) (success : Bool) : POp
  | sub (id : String) (u : Nat) : POp

/-- Apply one operation to the store. -/
def applyOp (s : ProgressStore) : POp → ProgressStore
  | POp.upd now id m t => (update s now id m t).1
  | POp.compl now id b => (complete s now id b).1
  | POp.sub id u => subscribe s id u

/-- Apply a sequence of operations. -/
def applyOps (s : ProgressStore) (ops : List POp) : ProgressStore :=
  ops.foldl applyOp s

end ProgressStore

/-! ## Session registry

Embedding of `SessionStore` (`session-store.ts`). -/

/-- The build status state machine of a session. -/
inductive BuildStatus : Type where
  | idle : BuildStatus
  | cloning : BuildStatus
  | building : BuildStatus
  | running : BuildStatus
  | failed : BuildStatus
deriving DecidableEq

/-- Forward position of a status along `idle → cloning → building →
running`; `failed` is terminal and ranked past the chain. -/
def BuildStatus.rank : BuildStatus → Nat
  | BuildStatus.idle => 0
  | BuildStatus.cloning => 1
  | BuildStatus.building => 2
  | BuildStatus.running => 3
  | BuildStatus.failed => 4

/-- One session record (`SessionData`). -/
structure SessionData : Type where
  sessionId : String
  containerId : String
  repoUrl : Option String
  repoName : Option String
  framework : Option String
  previewPort : Option Nat
  buildStatus : BuildStatus
  previewReady : Bool
  createdAt : Nat
  lastActivity : Nat
deriving DecidableEq

/-- A partial update (`Partial<SessionData>`) as passed to
`updateSession`; absent fields are left unchanged. -/
structure SessionUpdate : Type where
  repoUrl : Option String := none
  repoName : Option String := none
  framework : Option String := none
  previewPort : Option Nat := none
  buildStatus : Option BuildStatus := none
  previewReady : Option Bool := none

/-- Merge of a partial update into a session (`{...session, ...updates,
lastActivity: Date.now()}`). -/
def SessionData.merge (s : SessionData) (u : SessionUpdate) (now : Nat) : SessionData :=
  { s with
    repoUrl := (u.repoUrl.map some).getD s.repoUrl
    repoName := (u.repoName.map some).getD s.repoName
    framework := (u.framework.map some).getD s.framework
    previewPort := (u.previewPort.map some).getD s.previewPort
    buildStatus := u.buildStatus.getD s.buildStatus
    previewReady := u.previewReady.getD s.previewReady
    lastActivity := now }

/-- The session registry state: the session map. -/
abbrev SessionStore : Type := Smap SessionData

/-- `SessionStore.createSession`. -/
def createSession (m : SessionStore) (sessionId containerId : String) (now : Nat) :
    SessionStore :=
  sinsert sessionId
    ⟨sessionId, containerId, none, none, none, none, BuildStatus.idle, false, now, now⟩ m

/-- `SessionStore.updateSession`: on an unknown session id this logs a
warning and returns normally; the second component records whether a
failure was raised to the caller (it never is — the source returns
`void` on both paths). -/
def updateSession (m : SessionStore) (sessionId : String) (u : SessionUpdate) (now : Nat) :
    SessionStore × Except String Unit :=
  match slookup sessionId m with
  | none => (m, Except.ok ())
  | some s => (sinsert sessionId (s.merge u now) m, Except.ok ())

/-- `SessionStore.deleteSession` (subscriber map elided). -/
def deleteSession (m : SessionStore) (sessionId : String) : SessionStore :=
  serase sessionId m

/-! ## Container lifecycle manager

Embedding of `docker.ts`.  A cached container handle carries, as
oracles, the outcome the external Docker runtime would produce for each
command and its filesystem; `execCommand`, `readFile`, `writeFile` and
`destroyContainer` are total functions whose `Except` component is
exactly what the source raises (or does not raise) to its caller. -/

/-- Raw outcome of a completed `container.exec`, as inspected by the
source: captured streams and the possibly-null exit code. -/
structure RawExec : Type where
  stdout : String
  stderr : String
  exitCode : Option Int
deriving DecidableEq

/-- Outcome of asking the runtime to run one command. -/
inductive ExecOutcome : Type where
  | done (r : RawExec) : ExecOutcome
  | failure (msg : String) : ExecOutcome

/-- A cached container handle with its runtime oracles. -/
structure Container : Type where
  id : String
  run : List String → Option String → ExecOutcome
  fs : FS
  destroyErr : Option String

/-- The process-wide `containerCache`. -/
abbrev ContainerCache : Type := Smap Container

/-- Result of `execCommand` as returned to the caller. -/
structure ExecResult : Type where
  stdout : String
  stderr : String
  exitCode : Int
deriving DecidableEq

/-- `execCommand(sessionId, command, workingDir)`: throws a NotFound
error when no container is cached for the session; otherwise runs the
command (working directory defaulting to `/workspace`), rethrowing
runtime failures, and returns both streams plus
`inspection.ExitCode || 0`. -/
def execCommand (cache : ContainerCache) (sessionId : String) (command : List String)
    (workingDir : Option String) : Except String ExecResult :=
  match slookup sessionId cache with
  | none => Except.error ("No container found for session: " ++ sessionId)
  | some c =>
    match c.run command (some (workingDir.getD "/workspace")) with
    | ExecOutcome.done r => Except.ok ⟨r.stdout, r.stderr, r.exitCode.getD 0⟩
    | ExecOutcome.failure m => Except.error ("Failed to execute command: " ++ m)

/-- `readFile(sessionId, filePath)`: NotFound when no container is
cached; a failed archive transfer (missing file) throws. -/
def readFileC (cache : ContainerCache) (sessionId filePath : String) : Except String Content :=
  match slookup sessionId cache with
  | none => Except.error ("No container found for session: " ++ sessionId)
  | some c =>
    match slookup filePath c.fs with
    | some content => Except.ok content
    | none => Except.error ("Failed to read file: " ++ filePath)

/-- `writeFile(sessionId, filePath, content)`: NotFound when no
container is cached; otherwise the packed-archive upload replaces the
file content. -/
def writeFileC (cache : ContainerCache) (sessionId filePath : String) (content : Content) :
    Except String ContainerCache :=
  match slookup sessionId cache with
  | none => Except.error ("No container found for session: " ++ sessionId)
  | some c =>
    Except.ok (sinsert sessionId { c with fs := sinsert filePath content c.fs } cache)

/-- `destroyContainer(sessionId)`: a missing container is only warned
about and the call returns normally; stop/remove failures are caught
and swallowed (and on failure the handle stays cached).  The `Except`
component records what the caller observes — always `ok`. -/
def destroyContainer (cache : ContainerCache) (sessionId : String) :
    ContainerCache × Except String Unit :=
  match slookup sessionId cache with
  | none => (cache, Except.ok ())
  | some c =>
    match c.destroyErr with
    | none => (serase sessionId cache, Except.ok ())
    | some _ => (cache, Except.ok ())

/-! ## Build configuration detector

Embedding of `build-detector.ts`.  The manifest is the parsed
`package.json`; lock-file probes are the boolean outcomes of the two
`test -f` commands. -/

/-- Parsed `package.json` fields consumed by the detector. -/
structure PackageJson : Type where
  scripts : Option (Smap String)
  dependencies : Option (Smap String)
  devDependencies : Option (Smap String)

/-- The detected build configuration (`BuildConfig`). -/
structure BuildConfig : Type where
  framework : String
  packageManager : String
  installCommand : String
  buildCommand : Option String
  devCommand : String
  defaultPort : Nat
deriving DecidableEq

/-- Merged dependency map (`{...dependencies, ...devDependencies}`). -/
def PackageJson.allDeps (pj : PackageJson) : Smap String :=
  (pj.devDependencies.getD semp) ++ (pj.dependencies.getD semp)

/-- Truth of a dependency key (`allDeps.x` is truthy iff present —
a dependency version string in a manifest is a non-empty string). -/
def hasDep (deps : Smap String) (k : String) : Bool :=
  (slookup k deps).isSome

/-- `detectFramework`. -/
def detectFramework (pj : PackageJson) : String :=
  let deps := pj.allDeps
  if hasDep deps "next" then "Next.js"
  else if hasDep deps "vite" then "Vite"
  else if hasDep deps "remix" || hasDep deps "@remix-run/react" then "Remix"
  else if hasDep deps "react-scripts" then "Create React App"
  else if hasDep deps "nuxt" then "Nuxt"
  else if hasDep deps "gatsby" then "Gatsby"
  else if hasDep deps "@angular/core" then "Angular"
  else if hasDep deps "vue" then "Vue"
  else if hasDep deps "svelte" then "Svelte"
  else "Unknown"

/-- `detectPackageManager`: pnpm lock file first, then yarn, else npm. -/
def detectPackageManager (pnpmLockExists yarnLockExists : Bool) : String :=
  if pnpmLockExists then "pnpm" else if yarnLockExists then "yarn" else "npm"

/-- JS truthiness chain `scripts.dev || scripts.start || ''`. -/
def firstTruthy (a b : Option String) : String :=
  match a with
  | some s => if s = "" then (match b with | some s2 => if s2 = "" then "" else s2 | none => "") else s
  | none => match b with | some s2 => if s2 = "" then "" else s2 | none => ""

/-- Separator character class of the port-flag regex (the characters
matched by the `[=` plus whitespace `]` set). -/
def isPortSep (ch : Char) : Bool :=
  ch = '=' || ch.isWhitespace

/-- Offset of the first occurrence of the literal "--port" followed by a
separator run and a digit (where the port-flag regex first matches). -/
def findPortIdx (l : List Char) : Option Nat :=
  (List.range (l.length + 1)).find? (fun i =>
    ((l.drop i).take 6 == "--port".data) &&
    (let rest := l.drop (i + 6)
     decide (0 < (rest.takeWhile isPortSep).length) &&
       ((rest.dropWhile isPortSep).headD ' ').isDigit))

/-- Numeric value of a digit run. -/
def digitsToNat (l : List Char) : Nat :=
  l.foldl (fun n ch => n * 10 + (ch.toNat - 48)) 0

/-- Parse of the port-flag regex match against the chosen script string:
the digits following the first "--port" separated by at least one `=`
or whitespace character (the `parseInt` of the captured group). -/
def parsePortFlag (s : String) : Option Nat :=
  match findPortIdx s.data with
  | none => none
  | some i =>
    let rest := (s.data.drop (i + 6)).dropWhile isPortSep
    some (digitsToNat (rest.takeWhile Char.isDigit))

/-- `detectDefaultPort`. -/
def detectDefaultPort (framework : String) (scripts : Option (Smap String)) : Nat :=
  let explicit :=
    match scripts with
    | none => none
    | some sc => parsePortFlag (firstTruthy (slookup "dev" sc) (slookup "start" sc))
  match explicit with
  | some p => p
  | none =>
    if framework = "Next.js" then 3000
    else if framework = "Vite" then 5173
    else if framework = "Create React App" then 3000
    else if framework = "Remix" then 3000
    else if framework = "Angular" then 4200
    else if framework = "Vue" then 8080
    else 3000

/-- `detectDevCommand`: with no scripts object the source returns the
complete command string `npm run dev`; otherwise it returns a script
NAME from the priority list or the framework fallback. -/
def detectDevCommand (framework : String) (scripts : Option (Smap String)) : String :=
  match scripts with
  | none => "npm run dev"
  | some sc =>
    if (slookup "dev" sc).isSome then "dev"
    else if (slookup "start" sc).isSome then "start"
    else if (slookup "serve" sc).isSome then "serve"
    else if (slookup "preview" sc).isSome then "preview"
    else if framework = "Next.js" || framework = "Vite" || framework = "Remix" then "dev"
    else if framework = "Create React App" || framework = "Vue" || framework = "Angular" then
      "start"
    else "dev"

/-- `detectBuildCommand`. -/
def detectBuildCommand (scripts : Option (Smap String)) : Option String :=
  match scripts with
  | none => none
  | some sc => if (slookup "build" sc).isSome then some "build" else none

/-- `detectBuildConfig`: `none` for the manifest models a failed read or
parse of `/workspace/package.json`, which degrades to the hardcoded
defaults; note that the returned `devCommand` is always
`packageManager ++ " run " ++ detectDevCommand ...`. -/
def detectBuildConfig (manifest : Option PackageJson) (pnpmLockExists yarnLockExists : Bool) :
    BuildConfig :=
  match manifest with
  | none =>
    ⟨"Unknown", "npm", "npm install", none, "npm run dev", 3000⟩
  | some pj =>
    let framework := detectFramework pj
    let pm := detectPackageManager pnpmLockExists yarnLockExists
    let devScriptName := detectDevCommand framework pj.scripts
    let buildScriptName := detectBuildCommand pj.scripts
    { framework := framework
      packageManager := pm
      installCommand :=
        if pm = "npm" then "npm install" else if pm = "pnpm" then "pnpm install" else "yarn install"
      buildCommand := buildScriptName.map (fun b => pm ++ " run " ++ b)
      devCommand := pm ++ " run " ++ devScriptName
      defaultPort := detectDefaultPort framework pj.scripts }

/-! ## Session setup orchestrator

Embedding of the `repoSetupTool.execute` workflow (`repo-setup.ts`) as
the sequence of `buildStatus` values it writes into the session
registry, as a function of the environment outcomes: container
creation, the clone command, a possible runtime exception between the
`building` update and the readiness probe, and the probe responses. -/

/-- Outcomes of the external world during one setup run.  `probe i` is
the HTTP status of attempt `i` of the readiness probe, `none` when the
fetch threw (connection refused or timed out). -/
structure SetupEnv : Type where
  createOk : Bool
  cloneOk : Bool
  midException : Bool
  probe : Nat → Option Nat

/-- Probe acceptance: `check.ok || check.status === 404 || 405`. -/
def acceptedStatus (st : Nat) : Bool :=
  (200 ≤ st && st < 300) || st == 404 || st == 405

/-- Acceptance of one attempt outcome. -/
def acceptedOpt : Option Nat → Bool
  | some st => acceptedStatus st
  | none => false

/-- Number of readiness probe attempts (`maxAttempts = 30`). -/
def maxAttempts : Nat := 30

/-- The bounded readiness probe loop: `serverReady` after the loop. -/
def probeLoop (probe : Nat → Option Nat) : Bool :=
  (List.range maxAttempts).any (fun i => acceptedOpt (probe i))

/-- The sequence of `buildStatus` values written for the session during
one run of `repoSetupTool.execute`.  When container creation fails, no
session exists yet and the catch-all `updateSession` is a no-op; a
failed clone writes `failed` and throws into the catch-all, which
writes `failed` again; probe exhaustion likewise writes `failed` twice. -/
def setupTrace (env : SetupEnv) : List BuildStatus :=
  if !env.createOk then []
  else
    [BuildStatus.idle, BuildStatus.cloning] ++
      (if !env.cloneOk then [BuildStatus.failed, BuildStatus.failed]
       else
         [BuildStatus.building] ++
           (if env.midException then [BuildStatus.failed]
            else if probeLoop env.probe then [BuildStatus.running]
            else [BuildStatus.failed, BuildStatus.failed]))

/-- The session status after the run (the last status written). -/
def setupFinal (env : SetupEnv) : Option BuildStatus :=
  (setupTrace env).getLast?

/-- The timeout message thrown on probe exhaustion. -/
def devServerTimeoutMsg : String :=
  "Dev server failed to start within 30 seconds. The server may be misconfigured or the port may be in use."

/-- The error carried by the returned `{success: false, error}` result,
`none` on success. -/
def setupError (env : SetupEnv) (createErrMsg cloneStderr midExcMsg : String) : Option String :=
  if !env.createOk then some createErrMsg
  else if !env.cloneOk then some ("Failed to clone repository: " ++ cloneStderr)
  else if env.midException then some midExcMsg
  else if probeLoop env.probe then none
  else some devServerTimeoutMsg

/-! ## Claim C1: the build status never moves backward -/

/-- C1.  Every session created by the setup orchestrator changes its
`buildStatus` only along `idle → cloning → building → running`, or to
`failed`; every adjacent pair of statuses written during any possible
run of `repoSetupTool.execute` moves strictly forward along the chain or
lands on `failed`. -/
theorem buildStatus_forward_only (env : SetupEnv) :
    (setupTrace env).Chain'
      (fun s s1 => s1 = BuildStatus.failed ∨ s.rank < s1.rank) := by
  unfold setupTrace
  cases hc : env.createOk <;> cases hl : env.cloneOk <;>
    cases hm : env.midException <;> cases hp : probeLoop env.probe <;>
      simp [hc, hl, hm, hp] <;> decide

/-! ## Claim C2: detector output for a bare Next.js manifest

The specified scenario — manifest `{dependencies: {next: "14.0.0"}}`,
no `scripts`, no lock files — yields framework `Next.js`, package
manager `npm` and port 3000 as claimed, but the source slips on the dev
command: with no scripts object `detectDevCommand` returns the complete
command string `npm run dev`, which `detectBuildConfig` then prefixes
again with `npm run `, producing `npm run npm run dev`. -/

/-- C2 (divergence witness).  Evaluation of the detector at the claimed
scenario: three of the four claimed fields hold, while `devCommand` is
the doubled string `npm run npm run dev` instead of `npm run dev`. -/
theorem detectBuildConfig_next_no_scripts :
    detectBuildConfig (some ⟨none, some [("next", "14.0.0")], none⟩) false false =
      ⟨"Next.js", "npm", "npm install", none, "npm run npm run dev", 3000⟩ := by
  rfl

/-! ## Claim C6: probe exhaustion ends in failed, never stuck in building -/

/-- C6.  If the readiness probe exhausts all 30 attempts without an
accepted response, the session ends with `buildStatus = failed`, the
setup result carries the descriptive timeout message, and the session is
not left in `building`. -/
theorem probe_exhaustion_fails (env : SetupEnv) (cm ce me : String)
    (h1 : env.createOk = true) (h2 : env.cloneOk = true)
    (h3 : env.midException = false)
    (h4 : ∀ i, i < maxAttempts → acceptedOpt (env.probe i) = false) :
    setupFinal env = some BuildStatus.failed ∧
    setupError env cm ce me = some devServerTimeoutMsg ∧
    setupFinal env ≠ some BuildStatus.building := by
  have hp : probeLoop env.probe = false := by
    unfold probeLoop
    rw [List.any_eq_false]
    intro i hi
    rw [List.mem_range] at hi
    simp [h4 i hi]
  refine ⟨?_, ?_, ?_⟩ <;>
    simp [setupFinal, setupTrace, setupError, h1, h2, h3, hp]

/-- Witness for C6 at a probe that never answers. -/
theorem probe_exhaustion_fails_witness :
    setupFinal ⟨true, true, false, fun _ => none⟩ = some BuildStatus.failed ∧
    setupError ⟨true, true, false, fun _ => none⟩ "a" "b" "c" = some devServerTimeoutMsg ∧
    setupFinal ⟨true, true, false, fun _ => none⟩ ≠ some BuildStatus.building :=
  probe_exhaustion_fails ⟨true, true, false, fun _ => none⟩ "a" "b" "c" rfl rfl rfl
    (fun _ _ => rfl)

/-! ## Claim C7: exec on an unknown session is a NotFound failure -/

/-- C7.  `execCommand` on a session with no cached sandbox returns the
NotFound error naming the missing session (it does not crash: the
function is total and the error is a value raised to the caller); on a
cached sandbox whose runtime exec completes, it returns the captured
stdout, the captured stderr and the integer exit code
`inspection.ExitCode || 0`. -/
theorem execCommand_notfound_spec (cache : ContainerCache) (sid : String)
    (cmd : List String) (wd : Option String) :
    (slookup sid cache = none →
      execCommand cache sid cmd wd =
        Except.error ("No container found for session: " ++ sid)) ∧
    (∀ c r, slookup sid cache = some c →
      c.run cmd (some (wd.getD "/workspace")) = ExecOutcome.done r →
      execCommand cache sid cmd wd =
        Except.ok ⟨r.stdout, r.stderr, r.exitCode.getD 0⟩) := by
  constructor
  · intro h
    unfold execCommand
    rw [h]
  · intro c r hc hr
    unfold execCommand
    rw [hc]
    simp only []
    rw [hr]

/-- A concrete cached container whose runtime returns fixed streams. -/
def containerW : Container :=
  ⟨"cid0", fun _ _ => ExecOutcome.done ⟨"out", "err", some 3⟩, semp, none⟩

/-- Witness for C7: the NotFound branch on an empty cache and the
captured-streams branch on a cached container. -/
theorem execCommand_notfound_spec_witness :
    execCommand semp "ghost" ["ls"] none =
      Except.error ("No container found for session: " ++ "ghost") ∧
    execCommand [("s1", containerW)] "s1" ["ls"] none =
      Except.ok ⟨"out", "err", 3⟩ :=
  ⟨(execCommand_notfound_spec semp "ghost" ["ls"] none).1 rfl,
   (execCommand_notfound_spec [("s1", containerW)] "s1" ["ls"] none).2
     containerW ⟨"out", "err", some 3⟩ rfl rfl⟩

/-! ## Claim C8: not-found reporting

The claim states that every operation addressed to an unknown session —
exec, file read/write, session update, destroy — reports the not-found
condition to its immediate caller as a failure.  That holds for
`execCommand`, `readFile` and `writeFile`, but `updateSession` and
`destroyContainer` only log a warning and return normally, so for those
two operations the caller observes an ordinary success. -/

/-- C8 counterexample.  On the session id `ghost`, unknown to an empty
cache and an empty registry, `destroyContainer` returns normally
(`ok`) and `updateSession` returns normally leaving the registry
unchanged — neither reports a failure to its caller, refuting the
claim for the destroy and session-update operations. -/
theorem notfound_reporting_counterexample :
    (destroyContainer semp "ghost").2 = Except.ok () ∧
    updateSession semp "ghost" {} 5 = (semp, Except.ok ()) := by
  constructor <;> rfl

/-- C8 (amended).  Exec and file read/write report an unknown session
id to the caller as a NotFound error; session update and destroy log
the condition and return normally without reporting any failure, the
update leaving the registry unchanged and the destroy leaving the cache
unchanged. -/
theorem notfound_reporting_amended (cache : ContainerCache) (store : SessionStore)
    (sid : String) (cmd : List String) (wd : Option String) (path : String)
    (content : Content) (u : SessionUpdate) (now : Nat)
    (hc : slookup sid cache = none) (hs : slookup sid store = none) :
    execCommand cache sid cmd wd =
      Except.error ("No container found for session: " ++ sid) ∧
    readFileC cache sid path =
      Except.error ("No container found for session: " ++ sid) ∧
    writeFileC cache sid path content =
      Except.error ("No container found for session: " ++ sid) ∧
    destroyContainer cache sid = (cache, Except.ok ()) ∧
    updateSession store sid u now = (store, Except.ok ()) := by
  refine ⟨?_, ?_, ?_, ?_, ?_⟩
  · unfold execCommand; rw [hc]
  · unfold readFileC; rw [hc]
  · unfold writeFileC; rw [hc]
  · unfold destroyContainer; rw [hc]
  · unfold updateSession; rw [hs]

/-- Witness for the amended C8 on an empty cache and registry. -/
theorem notfound_reporting_amended_witness :
    execCommand semp "g2" [] none =
      Except.error ("No container found for session: " ++ "g2") ∧
    readFileC semp "g2" "/x" =
      Except.error ("No container found for session: " ++ "g2") ∧
    writeFileC semp "g2" "/x" (Content.str "y") =
      Except.error ("No container found for session: " ++ "g2") ∧
    destroyContainer semp "g2" = (semp, Except.ok ()) ∧
    updateSession semp "g2" {} 0 = (semp, Except.ok ()) :=
  notfound_reporting_amended semp semp "g2" [] none "/x" (Content.str "y") {} 0 rfl rfl

/-! ## Claim C10: the completed flag does not gate the append path -/

/-- C10.  On an execution already marked completed, `update` with a
message differing from the immediately preceding stored one still
appends it and synchronously delivers it to every current subscriber. -/
theorem completed_does_not_gate_append (s : ProgressStore) (id : String)
    (e : ProgressExecution) (now : Nat) (m : String) (t : Severity)
    (he : slookup id s.executions = some e) (hcomp : e.completed = true)
    (hlast : ProgressStore.sameAsLast e.messages m t = false) :
    ProgressStore.getMessages (ProgressStore.update s now id m t).1 id =
      e.messages ++ [⟨now, m, t⟩] ∧
    (ProgressStore.update s now id m t).2 =
      e.subscribers.map (fun u => (u, (⟨now, m, t⟩ : ProgressMessage))) := by
  unfold ProgressStore.update
  rw [he]
  simp [hlast, ProgressStore.getMessages]

/-- A store holding one completed execution with one subscriber. -/
def storeW : ProgressStore :=
  ⟨[("e", ⟨"e", [⟨0, "a", Severity.info⟩], true, [7]⟩)], semp, []⟩

/-- Witness for C10: appending a fresh message to the completed
execution of `storeW` stores it and notifies subscriber 7. -/
theorem completed_does_not_gate_append_witness :
    ProgressStore.getMessages (ProgressStore.update storeW 9 "e" "b" Severity.info).1 "e" =
      [⟨0, "a", Severity.info⟩, ⟨9, "b", Severity.info⟩] ∧
    (ProgressStore.update storeW 9 "e" "b" Severity.info).2 =
      [(7, (⟨9, "b", Severity.info⟩ : ProgressMessage))] :=
  completed_does_not_gate_append storeW "e" ⟨"e", [⟨0, "a", Severity.info⟩], true, [7]⟩
    9 "b" Severity.info rfl rfl rfl

/-! ## Claim C3: idempotent append against the last stored message -/

/-- Number of stored occurrences of a (text, severity) pair. -/
def countMsg (msgs : List ProgressMessage) (m : String) (t : Severity) : Nat :=
  (msgs.filter (fun x => decide (x.message = m) && decide (x.type = t))).length

/-- Unfolding of `update` on a known execution when the dedup check
does not fire. -/
theorem ProgressStore.update_found (s : ProgressStore) (now : Nat) (id m : String)
    (t : Severity) (e : ProgressExecution)
    (he : slookup id s.executions = some e)
    (hl : ProgressStore.sameAsLast e.messages m t = false) :
    ProgressStore.update s now id m t =
      ({ s with executions :=
          sinsert id { e with messages := e.messages ++ [⟨now, m, t⟩] } s.executions },
       e.subscribers.map (fun u => (u, (⟨now, m, t⟩ : ProgressMessage)))) := by
  unfold ProgressStore.update
  rw [he]
  simp [hl]

/-- Unfolding of `update` on a known execution when the dedup check
fires: nothing is stored and nothing is delivered. -/
theorem ProgressStore.update_dup (s : ProgressStore) (now : Nat) (id m : String)
    (t : Severity) (e : ProgressExecution)
    (he : slookup id s.executions = some e)
    (hl : ProgressStore.sameAsLast e.messages m t = true) :
    ProgressStore.update s now id m t = (s, []) := by
  unfold ProgressStore.update
  rw [he]
  simp [hl]

/-- C3.  Starting from a freshly created execution, appending the same
(text, severity) pair twice in a row stores exactly one copy — the
second append returns the store unchanged and delivers nothing — and
appending the same pair again after a different message was appended in
between stores a second occurrence. -/
theorem progress_append_dedup (s : ProgressStore) (n0 n1 n2 n3 n4 : Nat)
    (id m : String) (t : Severity) (m2 : String) (t2 : Severity)
    (hne : ¬(m2 = m ∧ t2 = t)) :
    ProgressStore.update
        ((ProgressStore.update (ProgressStore.create s n0 id none) n1 id m t).1) n2 id m t =
      (((ProgressStore.update (ProgressStore.create s n0 id none) n1 id m t).1), []) ∧
    ProgressStore.getMessages
        ((ProgressStore.update (ProgressStore.create s n0 id none) n1 id m t).1) id =
      [⟨n1, m, t⟩] ∧
    countMsg
      (ProgressStore.getMessages
        ((ProgressStore.update
          ((ProgressStore.update
            ((ProgressStore.update (ProgressStore.create s n0 id none) n1 id m t).1)
            n3 id m2 t2).1) n4 id m t).1) id) m t = 2 := by
  have hneBool : (decide (m2 = m) && decide (t2 = t)) = false := by
    by_cases h1 : m2 = m
    · by_cases h2 : t2 = t
      · exact absurd ⟨h1, h2⟩ hne
      · simp [h2]
    · simp [h1]
  have he0 : slookup id (ProgressStore.create s n0 id none).executions =
      some ⟨id, [], false, []⟩ := by
    simp [ProgressStore.create]
  have h1 := ProgressStore.update_found (ProgressStore.create s n0 id none) n1 id m t
    ⟨id, [], false, []⟩ he0 rfl
  have he1 : slookup id
      ((ProgressStore.update (ProgressStore.create s n0 id none) n1 id m t).1).executions =
      some ⟨id, [⟨n1, m, t⟩], false, []⟩ := by
    rw [h1]
    simp
  have hdup : ProgressStore.sameAsLast
      ((⟨id, [⟨n1, m, t⟩], false, []⟩ : ProgressExecution)).messages m t = true := by
    simp [ProgressStore.sameAsLast]
  have hneBool2 : (decide (m = m2) && decide (t = t2)) = false := by
    by_cases h1 : m = m2
    · by_cases h2 : t = t2
      · exact absurd ⟨h1.symm, h2.symm⟩ hne
      · simp [h2]
    · simp [h1]
  have hl2 : ProgressStore.sameAsLast
      ((⟨id, [⟨n1, m, t⟩], false, []⟩ : ProgressExecution)).messages m2 t2 = false := by
    simpa [ProgressStore.sameAsLast] using hneBool2
  refine ⟨?_, ?_, ?_⟩
  · exact ProgressStore.update_dup _ n2 id m t _ he1 hdup
  · unfold ProgressStore.getMessages
    rw [he1]
  · have h3 := ProgressStore.update_found
      ((ProgressStore.update (ProgressStore.create s n0 id none) n1 id m t).1) n3 id m2 t2
      ⟨id, [⟨n1, m, t⟩], false, []⟩ he1 hl2
    have he2 : slookup id
        ((ProgressStore.update
          ((ProgressStore.update (ProgressStore.create s n0 id none) n1 id m t).1)
          n3 id m2 t2).1).executions =
        some ⟨id, [⟨n1, m, t⟩, ⟨n3, m2, t2⟩], false, []⟩ := by
      rw [h3]
      simp
    have hl3 : ProgressStore.sameAsLast
        ((⟨id, [⟨n1, m, t⟩, ⟨n3, m2, t2⟩], false, []⟩ : ProgressExecution)).messages m t =
        false := by
      simp only [ProgressStore.sameAsLast]
      rw [show ([(⟨n1, m, t⟩ : ProgressMessage), ⟨n3, m2, t2⟩]).getLast? =
        some ⟨n3, m2, t2⟩ from rfl]
      simpa using hneBool
    have h4 := ProgressStore.update_found
      ((ProgressStore.update
        ((ProgressStore.update (ProgressStore.create s n0 id none) n1 id m t).1)
        n3 id m2 t2).1) n4 id m t
      ⟨id, [⟨n1, m, t⟩, ⟨n3, m2, t2⟩], false, []⟩ he2 hl3
    have he3 : slookup id
        ((ProgressStore.update
          ((ProgressStore.update
            ((ProgressStore.update (ProgressStore.create s n0 id none) n1 id m t).1)
            n3 id m2 t2).1) n4 id m t).1).executions =
        some ⟨id, [⟨n1, m, t⟩, ⟨n3, m2, t2⟩, ⟨n4, m, t⟩], false, []⟩ := by
      rw [h4]
      simp
    unfold ProgressStore.getMessages
    rw [he3]
    simp only [countMsg, List.filter]
    simp [hneBool]

/-- Witness for C3 at concrete messages. -/
theorem progress_append_dedup_witness :
    ProgressStore.update
        ((ProgressStore.update (ProgressStore.create ProgressStore.empty 0 "e" none) 1 "e" "a"
          Severity.info).1) 2 "e" "a" Severity.info =
      (((ProgressStore.update (ProgressStore.create ProgressStore.empty 0 "e" none) 1 "e" "a"
          Severity.info).1), []) ∧
    ProgressStore.getMessages
        ((ProgressStore.update (ProgressStore.create ProgressStore.empty 0 "e" none) 1 "e" "a"
          Severity.info).1) "e" =
      [⟨1, "a", Severity.info⟩] ∧
    countMsg
      (ProgressStore.getMessages
        ((ProgressStore.update
          ((ProgressStore.update
            ((ProgressStore.update (ProgressStore.create ProgressStore.empty 0 "e" none) 1 "e" "a"
              Severity.info).1)
            3 "e" "b" Severity.info).1) 4 "e" "a" Severity.info).1) "e") "a" Severity.info = 2 :=
  progress_append_dedup ProgressStore.empty 0 1 2 3 4 "e" "a" Severity.info "b" Severity.info
    (by simp)


/-! ## Claim C9: unconditional expiry five minutes after creation -/

/-- `update` never touches the timer list. -/
theorem ProgressStore.update_timers (s : ProgressStore) (now : Nat) (id m : String)
    (t : Severity) : ((ProgressStore.update s now id m t).1).timers = s.timers := by
  unfold ProgressStore.update
  split
  · rfl
  · split <;> rfl

/-- `complete` never touches the timer list. -/
theorem ProgressStore.complete_timers (s : ProgressStore) (now : Nat) (id : String)
    (b : Bool) : ((ProgressStore.complete s now id b).1).timers = s.timers := by
  unfold ProgressStore.complete
  split
  · rfl
  · split <;> dsimp only <;> split <;> rfl

/-- `subscribe` never touches the timer list. -/
theorem ProgressStore.subscribe_timers (s : ProgressStore) (id : String) (u : Nat) :
    (ProgressStore.subscribe s id u).timers = s.timers := by
  unfold ProgressStore.subscribe
  split <;> rfl

/-- Operations other than `create` never touch the timer list. -/
theorem applyOp_timers (s : ProgressStore) (op : ProgressStore.POp) :
    (ProgressStore.applyOp s op).timers = s.timers := by
  cases op with
  | upd now id m t => exact ProgressStore.update_timers s now id m t
  | compl now id b => exact ProgressStore.complete_timers s now id b
  | sub id u => exact ProgressStore.subscribe_timers s id u

/-- A sequence of non-create operations never touches the timer list. -/
theorem applyOps_timers (ops : List ProgressStore.POp) (s : ProgressStore) :
    (ProgressStore.applyOps s ops).timers = s.timers := by
  induction ops generalizing s with
  | nil => rfl
  | cons op ops ih =>
    unfold ProgressStore.applyOps
    simp only [List.foldl_cons]
    rw [show List.foldl ProgressStore.applyOp (ProgressStore.applyOp s op) ops =
      ProgressStore.applyOps (ProgressStore.applyOp s op) ops from rfl]
    rw [ih, applyOp_timers]

/-- Firing timers only removes executions. -/
theorem foldl_fireOne_exec_none (ts : List PTimer) (s : ProgressStore) (k : String)
    (h : slookup k s.executions = none) :
    slookup k (ts.foldl ProgressStore.fireOne s).executions = none := by
  induction ts generalizing s with
  | nil => exact h
  | cons t ts ih =>
    simp only [List.foldl_cons]
    apply ih
    unfold ProgressStore.fireOne
    simp only []
    rw [slookup_serase]
    split <;> simp [h]

/-- After firing a timer list containing a timer for `k`, the execution
`k` is gone. -/
theorem foldl_fireOne_exec_of_mem (ts : List PTimer) (s : ProgressStore) (t : PTimer)
    (ht : t ∈ ts) :
    slookup t.execId (ts.foldl ProgressStore.fireOne s).executions = none := by
  induction ts generalizing s with
  | nil => cases ht
  | cons t0 ts ih =>
    simp only [List.foldl_cons]
    rcases List.mem_cons.1 ht with h1 | h1
    · subst h1
      apply foldl_fireOne_exec_none
      unfold ProgressStore.fireOne
      simp [slookup_serase]
    · exact ih _ h1

/-- Firing timers only removes reverse hash lookups. -/
theorem foldl_fireOne_hash_none (ts : List PTimer) (s : ProgressStore) (h : String)
    (hh : slookup h s.inputHashToExecutionId = none) :
    slookup h (ts.foldl ProgressStore.fireOne s).inputHashToExecutionId = none := by
  induction ts generalizing s with
  | nil => exact hh
  | cons t ts ih =>
    simp only [List.foldl_cons]
    apply ih
    unfold ProgressStore.fireOne
    cases hhash : t.inputHash with
    | none => simpa [hhash] using hh
    | some h2 =>
      simp only [hhash]
      rw [slookup_serase]
      split <;> simp [hh]

/-- After firing a timer list containing a timer carrying hash `h`, the
reverse lookup for `h` is gone. -/
theorem foldl_fireOne_hash_of_mem (ts : List PTimer) (s : ProgressStore) (t : PTimer)
    (h : String) (ht : t ∈ ts) (hh : t.inputHash = some h) :
    slookup h (ts.foldl ProgressStore.fireOne s).inputHashToExecutionId = none := by
  induction ts generalizing s with
  | nil => cases ht
  | cons t0 ts ih =>
    simp only [List.foldl_cons]
    rcases List.mem_cons.1 ht with h1 | h1
    · subst h1
      apply foldl_fireOne_hash_none
      unfold ProgressStore.fireOne
      simp [hh, slookup_serase]
    · exact ih _ h1

/-- C9.  Whatever non-create operations (appends, completions,
subscriptions, on this or any other execution) happen in between, once
the cleanup delay of five minutes has elapsed and the scheduled timers
fire, the execution created at `n0` is deleted regardless of its
completion state: its messages query returns the empty list, it no
longer exists, and its dedup-key reverse lookup entry is removed. -/
theorem progress_expiry (s : ProgressStore) (n0 : Nat) (id : String) (hash : Option String)
    (ops : List ProgressStore.POp) (now : Nat)
    (hnow : n0 + ProgressStore.cleanupDelayMs ≤ now) :
    ProgressStore.getMessages
      (ProgressStore.fireTimers now
        (ProgressStore.applyOps (ProgressStore.create s n0 id hash) ops)) id = [] ∧
    ProgressStore.existsExec
      (ProgressStore.fireTimers now
        (ProgressStore.applyOps (ProgressStore.create s n0 id hash) ops)) id = false ∧
    (∀ h, hash = some h →
      ProgressStore.getExecutionIdByInputHash
        (ProgressStore.fireTimers now
          (ProgressStore.applyOps (ProgressStore.create s n0 id hash) ops)) h = none) := by
  have htimer : (⟨n0 + ProgressStore.cleanupDelayMs, id, hash⟩ : PTimer) ∈
      (ProgressStore.applyOps (ProgressStore.create s n0 id hash) ops).timers := by
    rw [applyOps_timers]
    simp [ProgressStore.create]
  have hdue : (⟨n0 + ProgressStore.cleanupDelayMs, id, hash⟩ : PTimer) ∈
      (ProgressStore.applyOps (ProgressStore.create s n0 id hash) ops).timers.filter
        (fun t => t.fireAt ≤ now) := by
    rw [List.mem_filter]
    exact ⟨htimer, by simpa using hnow⟩
  have hexec : slookup id
      (ProgressStore.fireTimers now
        (ProgressStore.applyOps (ProgressStore.create s n0 id hash) ops)).executions = none := by
    unfold ProgressStore.fireTimers
    exact foldl_fireOne_exec_of_mem _ _ _ hdue
  refine ⟨?_, ?_, ?_⟩
  · unfold ProgressStore.getMessages
    rw [hexec]
  · unfold ProgressStore.existsExec
    rw [hexec]
    rfl
  · intro h hh
    unfold ProgressStore.getExecutionIdByInputHash ProgressStore.fireTimers
    exact foldl_fireOne_hash_of_mem _ _ _ h hdue hh

/-- Witness for C9: a created, updated and completed execution is gone
five minutes later. -/
theorem progress_expiry_witness :
    ProgressStore.getMessages
      (ProgressStore.fireTimers 300000
        (ProgressStore.applyOps (ProgressStore.create ProgressStore.empty 0 "e" (some "k"))
          [ProgressStore.POp.upd 1 "e" "hello" Severity.info,
           ProgressStore.POp.compl 2 "e" true])) "e" = [] ∧
    ProgressStore.existsExec
      (ProgressStore.fireTimers 300000
        (ProgressStore.applyOps (ProgressStore.create ProgressStore.empty 0 "e" (some "k"))
          [ProgressStore.POp.upd 1 "e" "hello" Severity.info,
           ProgressStore.POp.compl 2 "e" true])) "e" = false ∧
    ProgressStore.getExecutionIdByInputHash
      (ProgressStore.fireTimers 300000
        (ProgressStore.applyOps (ProgressStore.create ProgressStore.empty 0 "e" (some "k"))
          [ProgressStore.POp.upd 1 "e" "hello" Severity.info,
           ProgressStore.POp.compl 2 "e" true])) "k" = none := by
  have h := progress_expiry ProgressStore.empty 0 "e" (some "k")
    [ProgressStore.POp.upd 1 "e" "hello" Severity.info,
     ProgressStore.POp.compl 2 "e" true] 300000 (by decide)
  exact ⟨h.1, h.2.1, h.2.2 "k" rfl⟩

/-! ## String lemmas for the injection proofs -/

theorem strContains_of_infix (s pat : String) (h : pat.data <:+: s.data) :
    strContains s pat = true :=
  decide_eq_true h

theorem infix_of_strContains (s pat : String) (h : strContains s pat = true) :
    pat.data <:+: s.data :=
  of_decide_eq_true h

/-- A case-sensitive occurrence gives the case-insensitive regex a
position to match at. -/
theorem findCI_isSome_of_contains (pat c : String) (h : strContains c pat = true) :
    (findCI pat.data c.data).isSome := by
  obtain ⟨s, t, hst⟩ := infix_of_strContains c pat h
  have hmatch : matchesAt pat.data c.data s.length = true := by
    unfold matchesAt
    rw [← hst, List.append_assoc, List.drop_left, List.take_left pat.data t]
    simp
  unfold findCI
  cases hfind : (List.range (c.data.length + 1)).find? (fun i => matchesAt pat.data c.data i) with
  | some i => rfl
  | none =>
    exfalso
    have hmem : s.length ∈ List.range (c.data.length + 1) := by
      rw [List.mem_range]
      have hle : s.length ≤ c.data.length := by
        rw [← hst]
        simp only [List.length_append]
        omega
      omega
    exact (List.find?_eq_none.1 hfind s.length hmem) hmatch

/-- A splice whose replacement carries the marker produces a content
containing the marker. -/
theorem strContains_spliceCI_marker (pat repl c : String)
    (hfind : (findCI pat.data c.data).isSome)
    (hm : PICKER_MARKER.data <:+: repl.data) :
    strContains (spliceCI pat repl c) PICKER_MARKER = true := by
  obtain ⟨i, hi⟩ := Option.isSome_iff_exists.1 hfind
  have hs : spliceCI pat repl c =
      ⟨c.data.take i ++ repl.data ++ c.data.drop (i + pat.data.length)⟩ := by
    unfold spliceCI
    rw [hi]
  rw [hs]
  exact strContains_of_infix _ _
    (hm.trans ⟨c.data.take i, c.data.drop (i + pat.data.length), rfl⟩)

/-- A splice with no occurrence of the pattern is the identity. -/
theorem spliceCI_id_of_none (pat repl c : String)
    (hf : findCI pat.data c.data = none) : spliceCI pat repl c = c := by
  unfold spliceCI
  rw [hf]

theorem replaceHtmlOpen_id_none (c : String)
    (hf : findCI "<html".data c.data = none) : replaceHtmlOpen c = c := by
  unfold replaceHtmlOpen
  rw [hf]

theorem replaceHtmlOpen_id_len (c : String) (i : Nat)
    (hf : findCI "<html".data c.data = some i)
    (hlen : ((c.data.drop (i + 5)).takeWhile (fun ch => ch ≠ '>')).length =
      (c.data.drop (i + 5)).length) : replaceHtmlOpen c = c := by
  unfold replaceHtmlOpen
  rw [hf]
  dsimp only
  rw [if_pos hlen]

theorem replaceHtmlOpen_eq_of_found (c : String) (i : Nat)
    (hf : findCI "<html".data c.data = some i)
    (hlen : ¬(((c.data.drop (i + 5)).takeWhile (fun ch => ch ≠ '>')).length =
      (c.data.drop (i + 5)).length)) :
    replaceHtmlOpen c =
      ⟨c.data.take i ++ ("<html".data ++ (c.data.drop (i + 5)).takeWhile (fun ch => ch ≠ '>')
        ++ (">\n      <head>\n" ++ tagApp ++ "\n      </head>").data)
        ++ c.data.drop (i + 5 + ((c.data.drop (i + 5)).takeWhile (fun ch => ch ≠ '>')).length + 1)⟩ := by
  unfold replaceHtmlOpen
  rw [hf]
  dsimp only
  rw [if_neg hlen]

theorem marker_in_tagApp_repl : PICKER_MARKER.data <:+: ("<head>\n" ++ tagApp).data := by
  decide

theorem marker_in_tagPages_repl : PICKER_MARKER.data <:+: ("<Head>\n" ++ tagPages).data := by
  decide

theorem marker_in_tagHtml : PICKER_MARKER.data <:+: tagHtml.data := by
  decide

theorem marker_in_htmlHead_repl : PICKER_MARKER.data <:+: (tagHtml ++ "\n  </head>").data := by
  decide

theorem marker_in_htmlBody_repl : PICKER_MARKER.data <:+: ("<body>\n" ++ tagHtml).data := by
  decide

theorem marker_in_htmlK :
    PICKER_MARKER.data <:+: (">\n      <head>\n" ++ tagApp ++ "\n      </head>").data := by
  decide

/-- An App Router iteration body either leaves the content unchanged or
inserts the marker. -/
theorem good_mkApp (c c1 : String) (hmk : mkApp c = some c1)
    (hnm : strContains c1 PICKER_MARKER = false) : c1 = c := by
  unfold mkApp at hmk
  by_cases h1 : strContains c "<head>"
  · rw [if_pos h1] at hmk
    exfalso
    have hc1 : c1 = spliceCI "<head>" ("<head>\n" ++ tagApp) c := (Option.some.inj hmk).symm
    subst hc1
    have hmark := strContains_spliceCI_marker "<head>" ("<head>\n" ++ tagApp) c
      (findCI_isSome_of_contains _ _ h1) marker_in_tagApp_repl
    rw [hmark] at hnm
    exact absurd hnm (by simp)
  · rw [if_neg h1] at hmk
    by_cases h2 : strContains c "<html"
    · rw [if_pos h2] at hmk
      have hc1 : c1 = replaceHtmlOpen c := (Option.some.inj hmk).symm
      subst hc1
      cases hf : findCI "<html".data c.data with
      | none => exact replaceHtmlOpen_id_none c hf
      | some i =>
        by_cases hlen : ((c.data.drop (i + 5)).takeWhile (fun ch => ch ≠ '>')).length =
            (c.data.drop (i + 5)).length
        · exact replaceHtmlOpen_id_len c i hf hlen
        · exfalso
          rw [replaceHtmlOpen_eq_of_found c i hf hlen] at hnm
          have hmid : PICKER_MARKER.data <:+:
              ("<html".data ++ (c.data.drop (i + 5)).takeWhile (fun ch => ch ≠ '>')
                ++ (">\n      <head>\n" ++ tagApp ++ "\n      </head>").data) :=
            marker_in_htmlK.trans
              ⟨"<html".data ++ (c.data.drop (i + 5)).takeWhile (fun ch => ch ≠ '>'), [], by simp⟩
          have hmark := strContains_of_infix
            (⟨c.data.take i ++ ("<html".data ++ (c.data.drop (i + 5)).takeWhile (fun ch => ch ≠ '>')
                ++ (">\n      <head>\n" ++ tagApp ++ "\n      </head>").data)
                ++ c.data.drop
                  (i + 5 + ((c.data.drop (i + 5)).takeWhile (fun ch => ch ≠ '>')).length + 1)⟩)
            PICKER_MARKER
            (hmid.trans ⟨c.data.take i,
              c.data.drop (i + 5 + ((c.data.drop (i + 5)).takeWhile (fun ch => ch ≠ '>')).length + 1),
              rfl⟩)
          rw [hmark] at hnm
          exact absurd hnm (by simp)
    · rw [if_neg h2] at hmk
      cases hmk

/-- A Pages Router iteration body either leaves the content unchanged
(no `<Head>` anchor) or inserts the marker. -/
theorem good_mkPages (c c1 : String) (hmk : mkPages c = some c1)
    (hnm : strContains c1 PICKER_MARKER = false) : c1 = c := by
  unfold mkPages at hmk
  have hc1 : c1 = spliceCI "<Head>" ("<Head>\n" ++ tagPages) c := (Option.some.inj hmk).symm
  subst hc1
  cases hf : findCI "<Head>".data c.data with
  | none => exact spliceCI_id_of_none _ _ _ hf
  | some i =>
    exfalso
    have hmark := strContains_spliceCI_marker "<Head>" ("<Head>\n" ++ tagPages) c
      (by rw [hf]; rfl) marker_in_tagPages_repl
    rw [hmark] at hnm
    exact absurd hnm (by simp)

/-- An HTML template iteration body always inserts the marker. -/
theorem good_mkHtml (c c1 : String) (hmk : mkHtml c = some c1)
    (hnm : strContains c1 PICKER_MARKER = false) : c1 = c := by
  exfalso
  unfold mkHtml at hmk
  have hc1 := (Option.some.inj hmk).symm
  subst hc1
  by_cases h1 : strContains c "</head>"
  · rw [if_pos h1] at hnm
    have hmark := strContains_spliceCI_marker "</head>" (tagHtml ++ "\n  </head>") c
      (findCI_isSome_of_contains _ _ h1) marker_in_htmlHead_repl
    rw [hmark] at hnm
    exact absurd hnm (by simp)
  · rw [if_neg h1] at hnm
    by_cases h2 : strContains c "<body>"
    · rw [if_pos h2] at hnm
      have hmark := strContains_spliceCI_marker "<body>" ("<body>\n" ++ tagHtml) c
        (findCI_isSome_of_contains _ _ h2) marker_in_htmlBody_repl
      rw [hmark] at hnm
      exact absurd hnm (by simp)
    · rw [if_neg h2] at hnm
      have hmark : strContains (c ++ "\n" ++ tagHtml) PICKER_MARKER = true := by
        apply strContains_of_infix
        refine marker_in_tagHtml.trans ⟨(c ++ "\n").data, [], ?_⟩
        rw [List.append_nil, ← String.data_append]
      rw [hmark] at hnm
      exact absurd hnm (by simp)

/-! ## Candidate loop lemmas -/

/-- The candidate paths of a loop configuration. -/
def pathsOf (P : List (String × (String → Option String))) : List String :=
  P.map Prod.fst

@[simp] theorem pathsOf_nil : pathsOf [] = [] := rfl

@[simp] theorem pathsOf_cons (p : String) (mk : String → Option String)
    (P : List (String × (String → Option String))) :
    pathsOf ((p, mk) :: P) = p :: pathsOf P := rfl

theorem tryLoop_nil (fs : FS) : tryLoop fs [] = (fs, none) := rfl

theorem tryLoop_cons_none (fs : FS) (p : String) (mk : String → Option String)
    (P : List (String × (String → Option String))) (h : slookup p fs = none) :
    tryLoop fs ((p, mk) :: P) = tryLoop fs P := by
  conv_lhs => unfold tryLoop
  rw [h]

theorem tryLoop_cons_files (fs : FS) (p : String) (mk : String → Option String)
    (P : List (String × (String → Option String))) (l : List String)
    (h : slookup p fs = some (Content.files l)) :
    tryLoop fs ((p, mk) :: P) = tryLoop fs P := by
  conv_lhs => unfold tryLoop
  rw [h]

theorem tryLoop_cons_marker (fs : FS) (p : String) (mk : String → Option String)
    (P : List (String × (String → Option String))) (c : String)
    (h : slookup p fs = some (Content.str c))
    (hm : strContains c PICKER_MARKER = true) :
    tryLoop fs ((p, mk) :: P) = (fs, some []) := by
  conv_lhs => unfold tryLoop
  rw [h]
  simp [hm]

theorem tryLoop_cons_mod (fs : FS) (p : String) (mk : String → Option String)
    (P : List (String × (String → Option String))) (c c1 : String)
    (h : slookup p fs = some (Content.str c))
    (hm : strContains c PICKER_MARKER = false) (hmk : mk c = some c1) :
    tryLoop fs ((p, mk) :: P) =
      (sinsert p (Content.str c1) (sinsert (p ++ backupSuffix) (Content.str c) fs),
       some [p]) := by
  conv_lhs => unfold tryLoop
  rw [h]
  simp [hm, hmk]

theorem tryLoop_cons_cont (fs : FS) (p : String) (mk : String → Option String)
    (P : List (String × (String → Option String))) (c : String)
    (h : slookup p fs = some (Content.str c))
    (hm : strContains c PICKER_MARKER = false) (hmk : mk c = none) :
    tryLoop fs ((p, mk) :: P) =
      tryLoop (sinsert (p ++ backupSuffix) (Content.str c) fs) P := by
  conv_lhs => unfold tryLoop
  rw [h]
  simp [hm, hmk]

/-- Chaining two candidate loops is one loop over the concatenation. -/
theorem tryLoop_append (fs : FS) (P Q : List (String × (String → Option String))) :
    tryLoop fs (P ++ Q) =
      (match tryLoop fs P with
       | (fs1, some r) => (fs1, some r)
       | (fs1, none) => tryLoop fs1 Q) := by
  induction P generalizing fs with
  | nil =>
    rw [List.nil_append, tryLoop_nil]
  | cons pm P ih =>
    obtain ⟨p, mk⟩ := pm
    rw [List.cons_append]
    cases hl : slookup p fs with
    | none =>
      rw [tryLoop_cons_none fs p mk (P ++ Q) hl, tryLoop_cons_none fs p mk P hl, ih]
    | some c =>
      cases c with
      | files l =>
        rw [tryLoop_cons_files fs p mk (P ++ Q) l hl, tryLoop_cons_files fs p mk P l hl, ih]
      | str c =>
        by_cases hm : strContains c PICKER_MARKER
        · rw [tryLoop_cons_marker fs p mk (P ++ Q) c hl hm,
            tryLoop_cons_marker fs p mk P c hl hm]
        · have hmf : strContains c PICKER_MARKER = false := by simpa using hm
          cases hmk : mk c with
          | some c1 =>
            rw [tryLoop_cons_mod fs p mk (P ++ Q) c c1 hl hmf hmk,
              tryLoop_cons_mod fs p mk P c c1 hl hmf hmk]
          | none =>
            rw [tryLoop_cons_cont fs p mk (P ++ Q) c hl hmf hmk,
              tryLoop_cons_cont fs p mk P c hl hmf hmk, ih]

/-- Outside the candidate paths and their backup siblings, a loop run
changes nothing. -/
theorem tryLoop_frame (P : List (String × (String → Option String))) (fsA fsB : FS)
    (r : Option (List String)) (q : String)
    (h : tryLoop fsA P = (fsB, r))
    (hq1 : q ∉ pathsOf P) (hq2 : ∀ p ∈ pathsOf P, q ≠ p ++ backupSuffix) :
    slookup q fsB = slookup q fsA := by
  induction P generalizing fsA fsB r with
  | nil =>
    rw [tryLoop_nil] at h
    injection h with h1 h2
    rw [h1]
  | cons pm P ih =>
    obtain ⟨p, mk⟩ := pm
    have hq1t : q ∉ pathsOf P := fun hx => hq1 (by simp [hx])
    have hq2t : ∀ p2 ∈ pathsOf P, q ≠ p2 ++ backupSuffix :=
      fun p2 hp2 => hq2 p2 (by simp [hp2])
    have hqp : q ≠ p := by
      intro hqp
      exact hq1 (by simp [hqp])
    have hqb : q ≠ p ++ backupSuffix := hq2 p (by simp)
    cases hl : slookup p fsA with
    | none =>
      rw [tryLoop_cons_none fsA p mk P hl] at h
      exact ih fsA fsB r h hq1t hq2t
    | some c =>
      cases c with
      | files l =>
        rw [tryLoop_cons_files fsA p mk P l hl] at h
        exact ih fsA fsB r h hq1t hq2t
      | str c =>
        by_cases hm : strContains c PICKER_MARKER
        · rw [tryLoop_cons_marker fsA p mk P c hl hm] at h
          injection h with h1 h2
          rw [h1]
        · have hmf : strContains c PICKER_MARKER = false := by simpa using hm
          cases hmk : mk c with
          | some c1 =>
            rw [tryLoop_cons_mod fsA p mk P c c1 hl hmf hmk] at h
            injection h with h1 h2
            rw [← h1, slookup_sinsert, slookup_sinsert,
              if_neg (fun hh => hqp hh.symm), if_neg (fun hh => hqb hh.symm)]
          | none =>
            rw [tryLoop_cons_cont fsA p mk P c hl hmf hmk] at h
            rw [ih _ fsB r h hq1t hq2t, slookup_sinsert,
              if_neg (fun hh => hqb hh.symm)]

/-- Specification of a loop run that returned a recorded file list:
either the marker short-circuit recorded nothing, or exactly one
candidate was modified, its original content surviving in the backup
sibling. -/
theorem tryLoop_success_spec (P : List (String × (String → Option String)))
    (fsA fsB : FS) (l : List String)
    (hnodup : (pathsOf P).Nodup)
    (hnoBs : ∀ a ∈ pathsOf P, ∀ b ∈ pathsOf P, a ≠ b ++ backupSuffix)
    (h : tryLoop fsA P = (fsB, some l)) :
    l = [] ∨ ∃ p c c1, l = [p] ∧ p ∈ pathsOf P ∧ slookup p fsA = some (Content.str c) ∧
      slookup p fsB = some (Content.str c1) ∧
      slookup (p ++ backupSuffix) fsB = some (Content.str c) := by
  induction P generalizing fsA fsB l with
  | nil =>
    rw [tryLoop_nil] at h
    injection h with h1 h2
    exact Option.noConfusion h2
  | cons pm P ih =>
    obtain ⟨p, mk⟩ := pm
    have hnodupt : (pathsOf P).Nodup := (List.nodup_cons.1 (by simpa using hnodup)).2
    have hnoBst : ∀ a ∈ pathsOf P, ∀ b ∈ pathsOf P, a ≠ b ++ backupSuffix :=
      fun a ha b hb => hnoBs a (by simp [ha]) b (by simp [hb])
    have hppb : p ≠ p ++ backupSuffix := hnoBs p (by simp) p (by simp)
    cases hl : slookup p fsA with
    | none =>
      rw [tryLoop_cons_none fsA p mk P hl] at h
      rcases ih fsA fsB l hnodupt hnoBst h with h0 | ⟨p2, c2, c21, hl2, hmem, ha, hb, hc⟩
      · exact Or.inl h0
      · exact Or.inr ⟨p2, c2, c21, hl2, by simp [hmem], ha, hb, hc⟩
    | some c =>
      cases c with
      | files l2 =>
        rw [tryLoop_cons_files fsA p mk P l2 hl] at h
        rcases ih fsA fsB l hnodupt hnoBst h with h0 | ⟨p2, c2, c21, hl2, hmem, ha, hb, hc⟩
        · exact Or.inl h0
        · exact Or.inr ⟨p2, c2, c21, hl2, by simp [hmem], ha, hb, hc⟩
      | str c =>
        by_cases hm : strContains c PICKER_MARKER
        · rw [tryLoop_cons_marker fsA p mk P c hl hm] at h
          injection h with h1 h2
          exact Or.inl (Option.some.inj h2).symm
        · have hmf : strContains c PICKER_MARKER = false := by simpa using hm
          cases hmk : mk c with
          | some c1 =>
            rw [tryLoop_cons_mod fsA p mk P c c1 hl hmf hmk] at h
            injection h with h1 h2
            refine Or.inr ⟨p, c, c1, (Option.some.inj h2).symm, by simp, hl, ?_, ?_⟩
            · rw [← h1, slookup_sinsert, if_pos rfl]
            · rw [← h1, slookup_sinsert, if_neg hppb, slookup_sinsert, if_pos rfl]
          | none =>
            rw [tryLoop_cons_cont fsA p mk P c hl hmf hmk] at h
            rcases ih _ fsB l hnodupt hnoBst h with h0 | ⟨p2, c2, c21, hl2, hmem, ha, hb, hc⟩
            · exact Or.inl h0
            · refine Or.inr ⟨p2, c2, c21, hl2, by simp [hmem], ?_, hb, hc⟩
              rw [slookup_sinsert] at ha
              have hne : ¬(p ++ backupSuffix = p2) :=
                fun hh => hnoBs p2 (by simp [hmem]) p (by simp) hh.symm
              rwa [if_neg hne] at ha

/-- The side conditions under which the candidate loops behave well:
distinct candidates, distinct backups, no candidate is a backup of
another, the distinguished path `x` is neither a candidate nor a
backup, and every iteration body either inserts the marker or leaves
the content unchanged. -/
structure LoopOK (x : String) (P : List (String × (String → Option String))) : Prop where
  nodup : (pathsOf P).Nodup
  nodupB : ((pathsOf P).map (fun p => p ++ backupSuffix)).Nodup
  noBs : ∀ a ∈ pathsOf P, ∀ b ∈ pathsOf P, a ≠ b ++ backupSuffix
  xPath : x ∉ pathsOf P
  xBack : ∀ p ∈ pathsOf P, p ++ backupSuffix ≠ x
  good : ∀ pm ∈ P, ∀ c c1, pm.2 c = some c1 →
    strContains c1 PICKER_MARKER = false → c1 = c

@[simp] theorem pathsOf_cons2 (pm : String × (String → Option String))
    (P : List (String × (String → Option String))) :
    pathsOf (pm :: P) = pm.1 :: pathsOf P := rfl

theorem LoopOK.tail {x : String} {pm : String × (String → Option String)}
    {P : List (String × (String → Option String))} (h : LoopOK x (pm :: P)) :
    LoopOK x P where
  nodup := (List.nodup_cons.1 h.nodup).2
  nodupB := (List.nodup_cons.1 h.nodupB).2
  noBs := fun a ha b hb =>
    h.noBs a (List.mem_cons_of_mem _ ha) b (List.mem_cons_of_mem _ hb)
  xPath := fun hx => h.xPath (List.mem_cons_of_mem _ hx)
  xBack := fun p hp => h.xBack p (List.mem_cons_of_mem _ hp)
  good := fun pm2 hpm2 => h.good pm2 (List.mem_cons_of_mem _ hpm2)

/-- Rerunning a candidate loop on its own result changes no lookup
outside the distinguished path `x` (second runs only rewrite values
already present, or stop at the marker). -/
theorem tryLoop_replay (x : String) (P : List (String × (String → Option String)))
    (fsA fsB g : FS) (r : Option (List String))
    (hok : LoopOK x P)
    (h1 : tryLoop fsA P = (fsB, r))
    (hg : ∀ q2, q2 ≠ x → slookup q2 g = slookup q2 fsB)
    (q : String) (hq : q ≠ x) :
    slookup q (tryLoop g P).1 = slookup q g := by
  induction P generalizing fsA fsB g r with
  | nil =>
    rw [tryLoop_nil]
  | cons pm P ih =>
    obtain ⟨p, mk⟩ := pm
    have hpmem : p ∈ pathsOf ((p, mk) :: P) := by simp
    have hpx : p ≠ x := fun hh => hok.xPath (hh ▸ hpmem)
    have hbx : p ++ backupSuffix ≠ x := hok.xBack p hpmem
    have hppb : p ≠ p ++ backupSuffix := hok.noBs p hpmem p hpmem
    have hptail : p ∉ pathsOf P := by
      have := hok.nodup
      rw [pathsOf_cons, List.nodup_cons] at this
      exact this.1
    have hp_not_bs_tail : ∀ b ∈ pathsOf P, p ≠ b ++ backupSuffix :=
      fun b hb => hok.noBs p hpmem b (by simp [hb])
    have hpbs_tail_paths : p ++ backupSuffix ∉ pathsOf P := by
      intro hmem
      exact hok.noBs (p ++ backupSuffix) (by simp [hmem]) p hpmem rfl
    have hbs_not_bs_tail : ∀ b ∈ pathsOf P, p ++ backupSuffix ≠ b ++ backupSuffix := by
      intro b hb hh
      have := hok.nodupB
      rw [pathsOf_cons, List.map_cons, List.nodup_cons] at this
      exact this.1 (hh ▸ List.mem_map_of_mem (fun p2 => p2 ++ backupSuffix) hb)
    cases hl : slookup p fsA with
    | none =>
      rw [tryLoop_cons_none fsA p mk P hl] at h1
      have hpB : slookup p fsB = slookup p fsA :=
        tryLoop_frame P fsA fsB r p h1 hptail hp_not_bs_tail
      have hpg : slookup p g = none := by
        rw [hg p hpx, hpB, hl]
      rw [tryLoop_cons_none g p mk P hpg]
      exact ih fsA fsB g r hok.tail h1 hg
    | some c0 =>
      cases c0 with
      | files l2 =>
        rw [tryLoop_cons_files fsA p mk P l2 hl] at h1
        have hpB : slookup p fsB = slookup p fsA :=
          tryLoop_frame P fsA fsB r p h1 hptail hp_not_bs_tail
        have hpg : slookup p g = some (Content.files l2) := by
          rw [hg p hpx, hpB, hl]
        rw [tryLoop_cons_files g p mk P l2 hpg]
        exact ih fsA fsB g r hok.tail h1 hg
      | str c =>
        by_cases hm : strContains c PICKER_MARKER
        · rw [tryLoop_cons_marker fsA p mk P c hl hm] at h1
          injection h1 with h1a h1b
          have hpg : slookup p g = some (Content.str c) := by
            rw [hg p hpx, ← h1a, hl]
          rw [tryLoop_cons_marker g p mk P c hpg hm]
        · have hmf : strContains c PICKER_MARKER = false := by simpa using hm
          cases hmk : mk c with
          | some c1 =>
            rw [tryLoop_cons_mod fsA p mk P c c1 hl hmf hmk] at h1
            injection h1 with h1a h1b
            have hpg : slookup p g = some (Content.str c1) := by
              rw [hg p hpx, ← h1a, slookup_sinsert, if_pos rfl]
            by_cases hm1 : strContains c1 PICKER_MARKER
            · rw [tryLoop_cons_marker g p mk P c1 hpg hm1]
            · have hm1f : strContains c1 PICKER_MARKER = false := by simpa using hm1
              have hc1c : c1 = c := hok.good (p, mk) (by simp) c c1 hmk hm1f
              subst hc1c
              rw [tryLoop_cons_mod g p mk P c1 c1 hpg hmf hmk]
              by_cases hqp : p = q
              · subst hqp
                rw [slookup_sinsert, if_pos rfl, hpg]
              · by_cases hqb : p ++ backupSuffix = q
                · rw [slookup_sinsert, if_neg hqp, slookup_sinsert, if_pos hqb,
                    hg q hq, ← h1a, slookup_sinsert, if_neg hqp,
                    slookup_sinsert, if_pos hqb]
                · rw [slookup_sinsert, if_neg hqp, slookup_sinsert, if_neg hqb]
          | none =>
            rw [tryLoop_cons_cont fsA p mk P c hl hmf hmk] at h1
            have hpB : slookup p fsB =
                slookup p (sinsert (p ++ backupSuffix) (Content.str c) fsA) :=
              tryLoop_frame P _ fsB r p h1 hptail hp_not_bs_tail
            have hpg : slookup p g = some (Content.str c) := by
              rw [hg p hpx, hpB, slookup_sinsert, if_neg (fun hh => hppb hh.symm), hl]
            have hbB : slookup (p ++ backupSuffix) fsB = some (Content.str c) := by
              rw [tryLoop_frame P _ fsB r (p ++ backupSuffix) h1 hpbs_tail_paths
                hbs_not_bs_tail, slookup_sinsert, if_pos rfl]
            have hbg : slookup (p ++ backupSuffix) g = some (Content.str c) := by
              rw [hg _ hbx, hbB]
            rw [tryLoop_cons_cont g p mk P c hpg hmf hmk]
            have hg1 : ∀ q2, q2 ≠ x →
                slookup q2 (sinsert (p ++ backupSuffix) (Content.str c) g) =
                  slookup q2 fsB := by
              intro q2 hq2
              rw [slookup_sinsert]
              by_cases hq2b : p ++ backupSuffix = q2
              · rw [if_pos hq2b, ← hq2b, hbB]
              · rw [if_neg hq2b, hg q2 hq2]
            rw [ih _ fsB (sinsert (p ++ backupSuffix) (Content.str c) g) r hok.tail h1 hg1,
              slookup_sinsert]
            by_cases hq2b : p ++ backupSuffix = q
            · rw [if_pos hq2b, ← hq2b, hbg]
            · rw [if_neg hq2b]

/-! ## The concrete loop configurations -/

/-- The full Next.js candidate sequence: App Router, then Pages Router,
then the HTML fallback. -/
def nextPairs : List (String × (String → Option String)) :=
  appPairs ++ (pagesPairs ++ htmlPairs)

/-- The candidate loop run by `modifyEntryPoint` for a framework. -/
def pairsFor (framework : String) : List (String × (String → Option String)) :=
  if framework = "Next.js" then nextPairs else htmlPairs

/-- `modifyEntryPoint` is one candidate loop over `pairsFor`. -/
theorem modifyEntryPoint_eq (framework : String) (fs : FS) :
    modifyEntryPoint framework fs =
      (match tryLoop fs (pairsFor framework) with
       | (fs1, some r) => (fs1, Except.ok r)
       | (fs1, none) =>
         (fs1, Except.error "Could not find HTML entry point to inject picker")) := by
  unfold modifyEntryPoint pairsFor
  by_cases hfw : framework = "Next.js"
  · rw [if_pos hfw, if_pos hfw]
    unfold injectNextJs injectHtmlTemplate nextPairs
    rw [tryLoop_append fs appPairs (pagesPairs ++ htmlPairs)]
    cases hA : tryLoop fs appPairs with
    | mk fsA rA =>
      cases rA with
      | none =>
        dsimp only
        rw [tryLoop_append fsA pagesPairs htmlPairs]
        cases hP : tryLoop fsA pagesPairs with
        | mk fsP rP =>
          cases rP with
          | none => dsimp only
          | some r2 => rfl
      | some r => rfl
  · rw [if_neg hfw, if_neg hfw]
    unfold injectHtmlTemplate
    cases hH : tryLoop fs htmlPairs with
    | mk fsH rH => cases rH <;> rfl

theorem pathsOf_map_mk (mk : String → Option String) (l : List String) :
    pathsOf (l.map (fun p => (p, mk))) = l := by
  simp only [pathsOf, List.map_map]
  rw [show (Prod.fst ∘ fun p => (p, mk)) = id from rfl, List.map_id]

theorem pathsOf_nextPairs :
    pathsOf nextPairs = appPaths ++ (pagesPaths ++ htmlPaths) := by
  unfold nextPairs appPairs pagesPairs htmlPairs
  simp only [pathsOf, List.map_append, List.map_map]
  rw [show (Prod.fst ∘ fun p => (p, mkApp)) = id from rfl,
    show (Prod.fst ∘ fun p => (p, mkPages)) = id from rfl,
    show (Prod.fst ∘ fun p => (p, mkHtml)) = id from rfl,
    List.map_id, List.map_id, List.map_id]

theorem pathsOf_htmlPairs : pathsOf htmlPairs = htmlPaths := by
  unfold htmlPairs
  exact pathsOf_map_mk mkHtml htmlPaths

/-- Facts about every candidate path: distinct from the picker asset,
the manifest and its own backup, and outside the asset directory. -/
theorem path_facts_next : ∀ p ∈ pathsOf nextPairs,
    p ≠ pickerDst ∧ p ≠ manifestPath ∧ p ++ backupSuffix ≠ manifestPath ∧
    underPickerB p = false ∧ underPickerB (p ++ backupSuffix) = false ∧
    p ≠ p ++ backupSuffix := by
  rw [pathsOf_nextPairs]
  decide

theorem path_facts_html : ∀ p ∈ pathsOf htmlPairs,
    p ≠ pickerDst ∧ p ≠ manifestPath ∧ p ++ backupSuffix ≠ manifestPath ∧
    underPickerB p = false ∧ underPickerB (p ++ backupSuffix) = false ∧
    p ≠ p ++ backupSuffix := by
  rw [pathsOf_htmlPairs]
  decide

theorem pickerDst_not_path_next : pickerDst ∉ pathsOf nextPairs := by
  rw [pathsOf_nextPairs]
  decide

theorem pickerDst_not_back_next :
    ∀ p ∈ pathsOf nextPairs, pickerDst ≠ p ++ backupSuffix := by
  rw [pathsOf_nextPairs]
  decide

theorem pickerDst_not_path_html : pickerDst ∉ pathsOf htmlPairs := by
  rw [pathsOf_htmlPairs]
  decide

theorem pickerDst_not_back_html :
    ∀ p ∈ pathsOf htmlPairs, pickerDst ≠ p ++ backupSuffix := by
  rw [pathsOf_htmlPairs]
  decide

theorem loopOK_next : LoopOK manifestPath nextPairs where
  nodup := by rw [pathsOf_nextPairs]; decide
  nodupB := by rw [pathsOf_nextPairs]; decide
  noBs := by rw [pathsOf_nextPairs]; decide
  xPath := by rw [pathsOf_nextPairs]; decide
  xBack := by rw [pathsOf_nextPairs]; decide
  good := by
    intro pm hpm c c1 hmk hnm
    rcases List.mem_append.1 hpm with h | h
    · obtain ⟨p, hp, rfl⟩ := List.mem_map.1 h
      exact good_mkApp c c1 hmk hnm
    · rcases List.mem_append.1 h with h2 | h2
      · obtain ⟨p, hp, rfl⟩ := List.mem_map.1 h2
        exact good_mkPages c c1 hmk hnm
      · obtain ⟨p, hp, rfl⟩ := List.mem_map.1 h2
        exact good_mkHtml c c1 hmk hnm

theorem loopOK_html : LoopOK manifestPath htmlPairs where
  nodup := by rw [pathsOf_htmlPairs]; decide
  nodupB := by rw [pathsOf_htmlPairs]; decide
  noBs := by rw [pathsOf_htmlPairs]; decide
  xPath := by rw [pathsOf_htmlPairs]; decide
  xBack := by rw [pathsOf_htmlPairs]; decide
  good := by
    intro pm hpm c c1 hmk hnm
    obtain ⟨p, hp, rfl⟩ := List.mem_map.1 hpm
    exact good_mkHtml c c1 hmk hnm

theorem loopOK_pairsFor (framework : String) :
    LoopOK manifestPath (pairsFor framework) := by
  unfold pairsFor
  split
  · exact loopOK_next
  · exact loopOK_html

theorem path_facts_pairsFor (framework : String) : ∀ p ∈ pathsOf (pairsFor framework),
    p ≠ pickerDst ∧ p ≠ manifestPath ∧ p ++ backupSuffix ≠ manifestPath ∧
    underPickerB p = false ∧ underPickerB (p ++ backupSuffix) = false ∧
    p ≠ p ++ backupSuffix := by
  unfold pairsFor
  split
  · exact path_facts_next
  · exact path_facts_html

theorem pickerDst_not_path_pairsFor (framework : String) :
    pickerDst ∉ pathsOf (pairsFor framework) := by
  unfold pairsFor
  split
  · exact pickerDst_not_path_next
  · exact pickerDst_not_path_html

theorem pickerDst_not_back_pairsFor (framework : String) :
    ∀ p ∈ pathsOf (pairsFor framework), pickerDst ≠ p ++ backupSuffix := by
  unfold pairsFor
  split
  · exact pickerDst_not_back_next
  · exact pickerDst_not_back_html

/-! ## Rollback lemmas -/

/-- Rollback always removes the manifest. -/
theorem cleanup_manifest_none (fs : FS) :
    slookup manifestPath (cleanupInjection fs) = none := by
  unfold cleanupInjection
  rw [slookup_serase, if_pos rfl]

/-- Rollback always removes the instrumentation asset directory. -/
theorem cleanup_picker_none (fs : FS) (q : String) (hq : underPickerB q = true) :
    slookup q (cleanupInjection fs) = none := by
  unfold cleanupInjection
  rw [slookup_serase]
  by_cases hqm : q = manifestPath
  · rw [if_pos hqm]
  · rw [if_neg hqm]
    unfold removePickerDir
    rw [slookup_sfilterKeys, hq]
    simp

theorem restorePhase_eq (fs : FS) (files : List String)
    (h : slookup manifestPath fs = some (Content.files files)) :
    restorePhase fs = files.foldl restoreOne fs := by
  unfold restorePhase
  rw [h]

theorem restoreOne_found (acc : FS) (f : String) (c : Content)
    (h : slookup (f ++ backupSuffix) acc = some c) :
    restoreOne acc f = sinsert f c (serase (f ++ backupSuffix) acc) := by
  unfold restoreOne
  rw [h]

/-! ## Claim C4: injection round-trip

The claim requires the round trip to leave no backup sibling behind.
It fails: a candidate entry file that exists but offers no insertion
anchor is backed up before the in-iteration throw, which the loop
catches by moving on to the next candidate; that stray backup is never
recorded in the manifest and rollback never deletes it. -/

/-- A sandbox whose first App Router candidate has no anchor (backed up,
then abandoned) and whose second candidate is injectable. -/
def fsC4 : FS :=
  [(REPO_PATH ++ "/app/layout.tsx", Content.str "export default x"),
   (REPO_PATH ++ "/app/layout.jsx", Content.str "<html><head></head></html>")]

/-- C4 counterexample.  On `fsC4` the injection succeeds, yet after
rollback the backup sibling of the abandoned first candidate is still
present in the sandbox — the round trip does not remove every backup
sibling, refuting the claim. -/
theorem inject_rollback_counterexample :
    (injectPicker "Next.js" "PICKER" fsC4).2.success = true ∧
    slookup (REPO_PATH ++ "/app/layout.tsx" ++ backupSuffix)
      (cleanupInjection (injectPicker "Next.js" "PICKER" fsC4).1) =
      some (Content.str "export default x") := by
  constructor
  · decide
  · decide

/-- C4 (amended).  For every sandbox file system, injection followed by
rollback restores every file recorded in the modification manifest to
byte-identical original content and deletes its backup sibling, and
leaves neither the instrumentation asset directory nor the manifest
behind; backup siblings of candidate entry-point files that were backed
up but then abandoned mid-iteration may remain. -/
theorem inject_rollback_amended (framework pickerContent : String) (fs : FS) :
    (∀ p ∈ (injectPicker framework pickerContent fs).2.filesModified,
      slookup p (cleanupInjection (injectPicker framework pickerContent fs).1) =
        slookup p fs ∧
      slookup (p ++ backupSuffix)
        (cleanupInjection (injectPicker framework pickerContent fs).1) = none) ∧
    slookup manifestPath (cleanupInjection (injectPicker framework pickerContent fs).1) =
      none ∧
    (∀ q, underPickerB q = true →
      slookup q (cleanupInjection (injectPicker framework pickerContent fs).1) = none) := by
  refine ⟨?_, cleanup_manifest_none _, fun q hq => cleanup_picker_none _ q hq⟩
  intro p hp
  cases hT : tryLoop (sinsert pickerDst (Content.str pickerContent) fs) (pairsFor framework)
    with
  | mk B res =>
    cases res with
    | none =>
      have hIP : injectPicker framework pickerContent fs =
          (B, ⟨false, [], some "Could not find HTML entry point to inject picker"⟩) := by
        unfold injectPicker
        dsimp only
        rw [modifyEntryPoint_eq, hT]
      rw [hIP] at hp
      exact absurd hp (by simp)
    | some files =>
      have hIP : injectPicker framework pickerContent fs =
          (sinsert manifestPath (Content.files files) B, ⟨true, files, none⟩) := by
        unfold injectPicker
        dsimp only
        rw [modifyEntryPoint_eq, hT]
        rfl
      rw [hIP] at hp ⊢
      dsimp only at hp ⊢
      have hok := loopOK_pairsFor framework
      rcases tryLoop_success_spec (pairsFor framework) _ B files hok.nodup hok.noBs hT with
        hnil | ⟨p2, c, c1, hfl, hmem, hA, hB, hBb⟩
      · subst hnil
        exact absurd hp (by simp)
      · subst hfl
        have hpp2 : p = p2 := by simpa using hp
        subst hpp2
        obtain ⟨hne_dst, hne_man, hbne_man, hupk, hbupk, hppb⟩ :=
          path_facts_pairsFor framework p hmem
        have hman : slookup manifestPath (sinsert manifestPath (Content.files [p]) B) =
            some (Content.files [p]) := by
          rw [slookup_sinsert, if_pos rfl]
        have hbfs1 : slookup (p ++ backupSuffix)
            (sinsert manifestPath (Content.files [p]) B) = some (Content.str c) := by
          rw [slookup_sinsert, if_neg (fun hh => hbne_man hh.symm), hBb]
        have hfsOrig : slookup p fs = some (Content.str c) := by
          rw [slookup_sinsert, if_neg (fun hh => hne_dst hh.symm)] at hA
          exact hA
        unfold cleanupInjection
        rw [restorePhase_eq _ [p] hman, List.foldl_cons, List.foldl_nil,
          restoreOne_found _ _ _ hbfs1]
        constructor
        · rw [slookup_serase, if_neg hne_man]
          unfold removePickerDir
          rw [slookup_sfilterKeys, hupk]
          rw [slookup_sinsert, if_pos rfl, hfsOrig]
          simp
        · rw [slookup_serase, if_neg hbne_man]
          unfold removePickerDir
          rw [slookup_sfilterKeys, hbupk]
          rw [slookup_sinsert, if_neg hppb, slookup_serase, if_pos rfl]
          simp

/-- A sandbox with one injectable HTML entry point. -/
def fsW4 : FS := [(REPO_PATH ++ "/index.html", Content.str "<a>")]

/-- Witness for the amended C4: the recorded file of `fsW4` is restored
byte-identically, its backup removed, and the asset directory and the
manifest are gone. -/
theorem inject_rollback_amended_witness :
    slookup (REPO_PATH ++ "/index.html")
        (cleanupInjection (injectPicker "Vite" "PK" fsW4).1) =
      slookup (REPO_PATH ++ "/index.html") fsW4 ∧
    slookup (REPO_PATH ++ "/index.html" ++ backupSuffix)
        (cleanupInjection (injectPicker "Vite" "PK" fsW4).1) = none ∧
    slookup manifestPath (cleanupInjection (injectPicker "Vite" "PK" fsW4).1) = none ∧
    slookup pickerDst (cleanupInjection (injectPicker "Vite" "PK" fsW4).1) = none := by
  have h := inject_rollback_amended "Vite" "PK" fsW4
  have hmem : (REPO_PATH ++ "/index.html") ∈
      (injectPicker "Vite" "PK" fsW4).2.filesModified := by decide
  exact ⟨(h.1 _ hmem).1, (h.1 _ hmem).2, h.2.1, h.2.2 pickerDst (by decide)⟩

/-! ## Claim C5: idempotence of injection

The entry-point files are indeed modified at most once — the second
call stops at the marker (or rewrites identical bytes) and changes no
file content — but the second call is not a no-op: it re-runs
`trackModifications`, overwriting the manifest (with the empty list in
the marker case), so the sandbox state does change. -/

/-- C5 counterexample.  On a sandbox with one injectable HTML entry
point, the first call records the modified file in the manifest; the
second call stops at the marker yet overwrites the manifest with an
empty file list — the second call is not a no-op. -/
theorem inject_twice_counterexample :
    slookup manifestPath (injectPicker "Vite" "PK" (injectPicker "Vite" "PK" fsW4).1).1 =
      some (Content.files []) ∧
    slookup manifestPath (injectPicker "Vite" "PK" fsW4).1 =
      some (Content.files [REPO_PATH ++ "/index.html"]) ∧
    (injectPicker "Vite" "PK" (injectPicker "Vite" "PK" fsW4).1).1 ≠
      (injectPicker "Vite" "PK" fsW4).1 := by
  refine ⟨by decide, by decide, ?_⟩
  intro h
  have h2 : slookup manifestPath (injectPicker "Vite" "PK"
      (injectPicker "Vite" "PK" fsW4).1).1 =
      slookup manifestPath (injectPicker "Vite" "PK" fsW4).1 := by rw [h]
  rw [show slookup manifestPath (injectPicker "Vite" "PK"
      (injectPicker "Vite" "PK" fsW4).1).1 = some (Content.files []) from by decide,
    show slookup manifestPath (injectPicker "Vite" "PK" fsW4).1 =
      some (Content.files [REPO_PATH ++ "/index.html"]) from by decide] at h2
  exact absurd h2 (by decide)

/-- C5 (amended).  Calling `injectPicker` twice in a row without an
intervening rollback modifies the entry-point files at most once: the
second call, detecting the marker already present (or rewriting byte
identical content), leaves every file of the sandbox unchanged except
the modification manifest, which it overwrites (with an empty recorded
list when it stopped at the marker); the re-copied picker asset is
rewritten with identical content. -/
theorem inject_second_call_amended (framework pickerContent : String) (fs : FS)
    (q : String) (hq : q ≠ manifestPath) :
    slookup q (injectPicker framework pickerContent
        (injectPicker framework pickerContent fs).1).1 =
      slookup q (injectPicker framework pickerContent fs).1 := by
  have hMD : ¬(manifestPath = pickerDst) := by decide
  cases hT : tryLoop (sinsert pickerDst (Content.str pickerContent) fs) (pairsFor framework)
    with
  | mk B res =>
    have hok := loopOK_pairsFor framework
    have hDstB : slookup pickerDst B = some (Content.str pickerContent) := by
      rw [tryLoop_frame (pairsFor framework) _ B res pickerDst hT
        (pickerDst_not_path_pairsFor framework) (pickerDst_not_back_pairsFor framework),
        slookup_sinsert, if_pos rfl]
    cases res with
    | some files =>
      have hIP : injectPicker framework pickerContent fs =
          (sinsert manifestPath (Content.files files) B, ⟨true, files, none⟩) := by
        unfold injectPicker
        dsimp only
        rw [modifyEntryPoint_eq, hT]
        rfl
      rw [hIP]
      dsimp only
      have hDstFs1 : slookup pickerDst (sinsert manifestPath (Content.files files) B) =
          some (Content.str pickerContent) := by
        rw [slookup_sinsert, if_neg hMD, hDstB]
      have hA2 : ∀ q2, slookup q2 (sinsert pickerDst (Content.str pickerContent)
          (sinsert manifestPath (Content.files files) B)) =
          slookup q2 (sinsert manifestPath (Content.files files) B) :=
        fun q2 => slookup_sinsert_same _ _ _ _ hDstFs1
      have hg : ∀ q2, q2 ≠ manifestPath →
          slookup q2 (sinsert pickerDst (Content.str pickerContent)
            (sinsert manifestPath (Content.files files) B)) = slookup q2 B := by
        intro q2 hq2
        rw [hA2 q2, slookup_sinsert, if_neg (fun hh => hq2 hh.symm)]
      cases hT2 : tryLoop (sinsert pickerDst (Content.str pickerContent)
          (sinsert manifestPath (Content.files files) B)) (pairsFor framework) with
      | mk B2 res2 =>
        have hrep := tryLoop_replay manifestPath (pairsFor framework) _ B
          (sinsert pickerDst (Content.str pickerContent)
            (sinsert manifestPath (Content.files files) B)) (some files) hok hT hg q hq
        rw [hT2] at hrep
        cases res2 with
        | some f2 =>
          have hIP2 : injectPicker framework pickerContent
              (sinsert manifestPath (Content.files files) B) =
              (sinsert manifestPath (Content.files f2) B2, ⟨true, f2, none⟩) := by
            unfold injectPicker
            dsimp only
            rw [modifyEntryPoint_eq, hT2]
            rfl
          rw [hIP2]
          dsimp only
          rw [slookup_sinsert, if_neg (fun hh => hq hh.symm), hrep, hA2 q]
        | none =>
          have hIP2 : injectPicker framework pickerContent
              (sinsert manifestPath (Content.files files) B) =
              (B2, ⟨false, [],
                some "Could not find HTML entry point to inject picker"⟩) := by
            unfold injectPicker
            dsimp only
            rw [modifyEntryPoint_eq, hT2]
          rw [hIP2]
          dsimp only
          rw [hrep, hA2 q]
    | none =>
      have hIP : injectPicker framework pickerContent fs =
          (B, ⟨false, [], some "Could not find HTML entry point to inject picker"⟩) := by
        unfold injectPicker
        dsimp only
        rw [modifyEntryPoint_eq, hT]
      rw [hIP]
      dsimp only
      have hA2 : ∀ q2, slookup q2 (sinsert pickerDst (Content.str pickerContent) B) =
          slookup q2 B :=
        fun q2 => slookup_sinsert_same _ _ _ _ hDstB
      have hg : ∀ q2, q2 ≠ manifestPath →
          slookup q2 (sinsert pickerDst (Content.str pickerContent) B) = slookup q2 B :=
        fun q2 _ => hA2 q2
      cases hT2 : tryLoop (sinsert pickerDst (Content.str pickerContent) B)
          (pairsFor framework) with
      | mk B2 res2 =>
        have hrep := tryLoop_replay manifestPath (pairsFor framework) _ B
          (sinsert pickerDst (Content.str pickerContent) B) none hok hT hg q hq
        rw [hT2] at hrep
        cases res2 with
        | some f2 =>
          have hIP2 : injectPicker framework pickerContent B =
              (sinsert manifestPath (Content.files f2) B2, ⟨true, f2, none⟩) := by
            unfold injectPicker
            dsimp only
            rw [modifyEntryPoint_eq, hT2]
            rfl
          rw [hIP2]
          dsimp only
          rw [slookup_sinsert, if_neg (fun hh => hq hh.symm), hrep, hA2 q]
        | none =>
          have hIP2 : injectPicker framework pickerContent B =
              (B2, ⟨false, [],
                some "Could not find HTML entry point to inject picker"⟩) := by
            unfold injectPicker
            dsimp only
            rw [modifyEntryPoint_eq, hT2]
          rw [hIP2]
          dsimp only
          rw [hrep, hA2 q]

/-- Witness for the amended C5 at the entry-point file of `fsW4`. -/
theorem inject_second_call_amended_witness :
    slookup (REPO_PATH ++ "/index.html")
        (injectPicker "Vite" "PK" (injectPicker "Vite" "PK" fsW4).1).1 =
      slookup (REPO_PATH ++ "/index.html") (injectPicker "Vite" "PK" fsW4).1 :=
  inject_second_call_amended "Vite" "PK" fsW4 (REPO_PATH ++ "/index.html") (by decide)

end Pilot
